import Mathlib

/-!
Verification of the lighting subsystem of the plaza-systems viewer.

The definitions below are a shallow embedding of the TypeScript source
(`HeronWingsViewer` and its helper functions).  JavaScript numbers are
modelled by `ℝ` where the source uses transcendental functions
(`Math.sin`) and by `ℚ` where the source only uses field operations and
comparisons, so that those definitions stay executable.  The JavaScript
`%` operator (truncated remainder) is modelled by `jsMod`; `Math.round`
(round half up) by `jsRound`.  A `THREE.Color` is modelled by the
normalized arguments of the call that last wrote it: `Color.rgbHex n`
for `set(0x......)` and `Color.hsl h s l` for `setHSL(h, s, l)` with the
hue already wrapped into `[0,1)` (as `THREE.Color.setHSL` does via
`euclideanModulo(h, 1)`); at fixed saturation/lightness distinct wrapped
hues denote distinct colors.
-/

namespace Plaza

/-- The `LightEffect` union type of the source. -/
inductive LightEffect where
  | off
  | pinkGlow
  | pinkPulse
  | pinkWave
  | pinkRipple
  | blueGlow
  | bluePulse
  | blueWave
  | blueRipple
  | rainbowWave
  | rainbowRipple
  | fire
  | ocean
  | aurora
deriving DecidableEq, Repr

/-- A written color value: either a hex constant (`color.set(0x...)`) or the
wrapped HSL triple written by `color.setHSL(h, s, l)`. -/
inductive Color where
  | rgbHex (n : ℕ)
  | hsl (h s l : ℝ)

/-- JavaScript truncation toward zero, as used by the `%` operator. -/
noncomputable def jsTruncR (q : ℝ) : ℤ := if 0 ≤ q then ⌊q⌋ else ⌈q⌉

/-- The JavaScript `%` operator on numbers (truncated remainder). -/
noncomputable def jsModR (a b : ℝ) : ℝ := a - b * jsTruncR (a / b)

/-- `THREE.Color.setHSL`: the hue is wrapped by `euclideanModulo(h, 1)`,
which equals `Int.fract h`. -/
noncomputable def mkHSL (h s l : ℝ) : Color := .hsl (Int.fract h) s l

/-- `const TAU = Math.PI * 2`. -/
noncomputable def TAU : ℝ := Real.pi * 2

/-- `evaluateEmitterEffect(effect, time, phase, outColor, speed)`.  The
source writes the color into the out-parameter `outColor` and returns the
intensity multiplier; here the pair (written color, returned intensity) is
returned.  The source's `default` branch is unreachable for the
`LightEffect` union and so has no counterpart. -/
noncomputable def evaluateEmitterEffect (effect : LightEffect)
    (time phase speed : ℝ) : Color × ℝ :=
  let t := time * speed
  match effect with
  | .off => (Color.rgbHex 0x000000, 0)
  | .pinkGlow => (Color.rgbHex 0xF7B5CD, 1)
  | .pinkPulse =>
      let pulse := 0.5 + 0.5 * Real.sin (t * 2.0)
      (Color.rgbHex 0xF7B5CD, 0.3 + 0.7 * pulse)
  | .pinkWave =>
      let wave := 0.5 + 0.5 * Real.sin (t * 3.0 + phase * TAU)
      (Color.rgbHex 0xF7B5CD, 0.2 + 0.8 * wave)
  | .pinkRipple =>
      let ripple := 0.5 + 0.5 * Real.sin (t * 4.0 - phase * TAU * 2.0)
      (Color.rgbHex 0xF7B5CD, 0.1 + 0.9 * ripple)
  | .blueGlow => (Color.rgbHex 0x5CA8FF, 1)
  | .bluePulse =>
      let pulse := 0.5 + 0.5 * Real.sin (t * 2.0)
      (Color.rgbHex 0x5CA8FF, 0.3 + 0.7 * pulse)
  | .blueWave =>
      let wave := 0.5 + 0.5 * Real.sin (t * 3.0 + phase * TAU)
      (Color.rgbHex 0x5CA8FF, 0.2 + 0.8 * wave)
  | .blueRipple =>
      let ripple := 0.5 + 0.5 * Real.sin (t * 4.0 - phase * TAU * 2.0)
      (Color.rgbHex 0x5CA8FF, 0.1 + 0.9 * ripple)
  | .rainbowWave =>
      let hue := jsModR (t * 0.3 + phase) 1
      let wave := 0.5 + 0.5 * Real.sin (t * 2.5 + phase * TAU)
      (mkHSL hue 0.85 0.55, 0.4 + 0.6 * wave)
  | .rainbowRipple =>
      let hue := jsModR (t * 0.2 - phase * 0.5) 1
      let ripple := 0.5 + 0.5 * Real.sin (t * 3.5 - phase * TAU * 2.0)
      (mkHSL (if hue < 0 then hue + 1 else hue) 0.9 0.55, 0.2 + 0.8 * ripple)
  | .fire =>
      let flicker := Real.sin (t * 8.0 + phase * 5.0) * Real.sin (t * 12.0 + phase * 7.0)
      let hue := 0.05 + 0.05 * flicker
      (mkHSL hue 1.0 (0.5 + 0.15 * flicker), 0.5 + 0.5 * (0.5 + 0.5 * flicker))
  | .ocean =>
      let wave1 := Real.sin (t * 1.5 + phase * TAU)
      let wave2 := Real.sin (t * 2.3 + phase * TAU * 1.5)
      let combined := (wave1 + wave2) * 0.5
      let hue := 0.52 + 0.03 * combined
      (mkHSL hue 0.7 (0.45 + 0.1 * combined), 0.4 + 0.6 * (0.5 + 0.5 * combined))
  | .aurora =>
      let shift := Real.sin (t * 0.8 + phase * TAU)
      let shimmer := Real.sin (t * 4.0 + phase * 3.0) * 0.3
      let hue := 0.35 + 0.15 * shift + 0.05 * shimmer
      (mkHSL hue 0.75 (0.5 + 0.15 * shimmer),
        0.5 + 0.5 * (0.5 + 0.5 * shift + 0.2 * shimmer))

/-- A strictly positive lower bound for the intensity multiplier of each
non-`off` effect, read off from the formulas of `evaluateEmitterEffect`. -/
noncomputable def intensityLowerFloor : LightEffect → ℝ
  | .off => 0
  | .pinkGlow => 1
  | .blueGlow => 1
  | .pinkPulse => 0.3
  | .bluePulse => 0.3
  | .pinkWave => 0.2
  | .blueWave => 0.2
  | .pinkRipple => 0.1
  | .blueRipple => 0.1
  | .rainbowWave => 0.4
  | .rainbowRipple => 0.2
  | .fire => 0.5
  | .ocean => 0.4
  | .aurora => 0.47

/-- The period of each non-`off` effect in scaled time `t · speed`, read off
from the sine frequencies of `evaluateEmitterEffect` (for the two rainbow
effects this is the period of the intensity multiplier only; their hue term
has no common period with it). -/
noncomputable def effectPeriodScaled : LightEffect → ℝ
  | .off => 1
  | .pinkGlow => 1
  | .blueGlow => 1
  | .pinkPulse => Real.pi
  | .bluePulse => Real.pi
  | .pinkWave => 2 * Real.pi / 3
  | .blueWave => 2 * Real.pi / 3
  | .pinkRipple => Real.pi / 2
  | .blueRipple => Real.pi / 2
  | .rainbowWave => 4 * Real.pi / 5
  | .rainbowRipple => 4 * Real.pi / 7
  | .fire => Real.pi / 2
  | .ocean => 20 * Real.pi
  | .aurora => 5 * Real.pi / 2

open Classical in
/-- The period of an effect in wall-clock time at a given speed: the code
multiplies time by `speed` before use, so the wall-clock period is the
scaled period divided by `|speed|` (any positive value serves at speed 0,
where every effect is constant in time). -/
noncomputable def effectPeriod (e : LightEffect) (s : ℝ) : ℝ :=
  if s = 0 then 1 else effectPeriodScaled e / |s|

/-- The functional light group of an emitter (`EmissiveLayerType`). -/
inductive EmissiveLayerType where
  | edgeLed
  | baseLights
  | washLights
deriving DecidableEq, Repr

/-- The kind of `THREE` light object backing an emitter
(`THREE.SpotLight` or `THREE.PointLight`). -/
inductive LightKind where
  | spot
  | point
deriving DecidableEq, Repr

/-- One synthesized emitter (`EmissiveEmitterLight`) together with the
mutable fields of its light object (`light.visible`, `light.intensity`,
`light.color`) and the visibility of its source object. -/
structure EmitterLight where
  kind : LightKind
  layerType : EmissiveLayerType
  followSourceVisibility : Bool
  sourceVisible : Bool
  phase : ℝ
  baseIntensity : ℝ
  lightVisible : Bool
  lightIntensity : ℝ
  lightColor : Color

/-- `shouldEmitterBeVisible(emitter, effect)`. -/
def shouldEmitterBeVisible (e : EmitterLight) (effect : LightEffect) : Bool :=
  if effect = .off then false
  else if !e.followSourceVisibility then true
  else e.sourceVisible

/-- One linear (`Edge LED` / `Base Lights`) mesh: its current material, the
stored powered-down clone (`originalMaterials.get(mesh)`, `none` when the
map has no entry) and the shader material at the mesh's index in the
parallel `shaderMaterials` array (`none` when that slot is missing).
Materials are identified by numeric tokens. -/
structure LinearMeshState where
  material : ℕ
  offMaterial : Option ℕ
  shaderMaterial : Option ℕ

/-- The state touched by the linear-lights effect handler: the linear meshes
and the full emitter-light list. -/
structure LinearLightsState where
  meshes : List LinearMeshState
  emitters : List EmitterLight

open Classical in
/-- The `useEffect` body that runs when the linear (`Edge LED` + `Base
Lights`) effect or the glow setting changes: computes
`isLinearGlowActive = (lightEffect !== 'off' && edgeGlowIntensity > 0.0001)`,
restores each mesh's stored powered-down material when inactive or applies
the per-mesh shader material when active (the shader-uniform writes carry no
state observed by any claim and are not modelled), then updates only the
`edge-led` and `base-lights` emitters: visibility from
`shouldEmitterBeVisible`, intensity 0 when invisible, otherwise color and
intensity from `evaluateEmitterEffect`. -/
noncomputable def updateLinearEffect (lightEffect : LightEffect)
    (edgeGlowIntensity currentTime speed emitterScale : ℝ)
    (st : LinearLightsState) : LinearLightsState :=
  let isLinearGlowActive := lightEffect ≠ .off ∧ edgeGlowIntensity > 0.0001
  let meshes :=
    if isLinearGlowActive then
      st.meshes.map fun m =>
        match m.shaderMaterial with
        | some sh => { m with material := sh }
        | none => m
    else
      st.meshes.map fun m =>
        match m.offMaterial with
        | some original => { m with material := original }
        | none => m
  let emitters := st.emitters.map fun e =>
    if e.layerType = .edgeLed ∨ e.layerType = .baseLights then
      let visible := shouldEmitterBeVisible e lightEffect
      if visible then
        let result := evaluateEmitterEffect lightEffect currentTime e.phase speed
        { e with lightVisible := true, lightColor := result.1,
                 lightIntensity := e.baseIntensity * result.2 * emitterScale }
      else
        { e with lightVisible := false, lightIntensity := 0 }
    else e
  { meshes := meshes, emitters := emitters }

open Classical in
/-- The `useEffect` body that runs when the wash (`Wash Lights`) effect
changes: restores each wash mesh's stored original material when the effect
is `off` or applies the per-mesh shader material otherwise (the
shader-uniform writes carry no state observed by any claim and are not
modelled), then updates only the `wash-lights` emitters: visibility from
`shouldEmitterBeVisible` with the wash effect, intensity 0 when invisible,
otherwise color and intensity from `evaluateEmitterEffect` scaled by the
wash intensity. -/
noncomputable def updateWashEffect (washLightEffect : LightEffect)
    (currentTime speed washScale : ℝ)
    (st : LinearLightsState) : LinearLightsState :=
  let meshes :=
    if washLightEffect = .off then
      st.meshes.map fun m =>
        match m.offMaterial with
        | some original => { m with material := original }
        | none => m
    else
      st.meshes.map fun m =>
        match m.shaderMaterial with
        | some sh => { m with material := sh }
        | none => m
  let emitters := st.emitters.map fun e =>
    if e.layerType = .washLights then
      let visible := shouldEmitterBeVisible e washLightEffect
      if visible then
        let result := evaluateEmitterEffect washLightEffect currentTime e.phase speed
        { e with lightVisible := true, lightColor := result.1,
                 lightIntensity := e.baseIntensity * result.2 * washScale }
      else
        { e with lightVisible := false, lightIntensity := 0 }
    else e
  { meshes := meshes, emitters := emitters }

open Classical in
/-- One emitter's update in the per-frame animation loop (the initial
post-load pass is identical): the effect and the intensity scalar are chosen
by the emitter's own layer type. -/
noncomputable def updateEmitterFrame (linearEffect washEffect : LightEffect)
    (elapsedTime speed emitterScale washScale : ℝ)
    (e : EmitterLight) : EmitterLight :=
  let effect := if e.layerType = .washLights then washEffect else linearEffect
  let visible := shouldEmitterBeVisible e effect
  if visible then
    let result := evaluateEmitterEffect effect elapsedTime e.phase speed
    let scale := if e.layerType = .washLights then washScale else emitterScale
    { e with lightVisible := true, lightColor := result.1,
             lightIntensity := e.baseIntensity * result.2 * scale }
  else
    { e with lightVisible := false, lightIntensity := 0 }

/-- The animation-loop emitter pass over the whole emitter list. -/
noncomputable def updateEmittersFrame (linearEffect washEffect : LightEffect)
    (elapsedTime speed emitterScale washScale : ℝ)
    (emitters : List EmitterLight) : List EmitterLight :=
  emitters.map
    (updateEmitterFrame linearEffect washEffect elapsedTime speed emitterScale washScale)

/-- The layer-visibility `useEffect`: after re-applying mesh visibility it
re-derives every emitter's visibility, passing
`activeLightEffectRef.current` — the *linear* effect — for every emitter,
wash emitters included. -/
def updateEmittersOnLayersChange (activeLinearEffect : LightEffect)
    (emitters : List EmitterLight) : List EmitterLight :=
  emitters.map fun e =>
    { e with lightVisible := shouldEmitterBeVisible e activeLinearEffect }

/-- A 3-component vector (`THREE.Vector3`), generic over the number type:
`ℚ` where the source only needs field operations, `ℝ` where it needs square
roots. -/
structure Vec3 (α : Type) where
  x : α
  y : α
  z : α
deriving DecidableEq, Repr

/-- `THREE.Vector3.sub`. -/
def Vec3.sub {α : Type} [Field α] (a b : Vec3 α) : Vec3 α :=
  ⟨a.x - b.x, a.y - b.y, a.z - b.z⟩

/-- `THREE.Vector3.lengthSq`. -/
def Vec3.lengthSq {α : Type} [Field α] (v : Vec3 α) : α :=
  v.x * v.x + v.y * v.y + v.z * v.z

/-- `THREE.Vector3.distanceToSquared`. -/
def Vec3.distanceToSquared {α : Type} [Field α] (a b : Vec3 α) : α :=
  (a.sub b).lengthSq

/-- `vector.setY(y)`. -/
def Vec3.setY {α : Type} (v : Vec3 α) (y : α) : Vec3 α := ⟨v.x, y, v.z⟩

/-- `THREE.Vector3.lerp(v, alpha)`: `this += (v - this) * alpha`
component-wise. -/
def Vec3.lerp {α : Type} [Field α] (a b : Vec3 α) (alpha : α) : Vec3 α :=
  ⟨a.x + (b.x - a.x) * alpha, a.y + (b.y - a.y) * alpha,
   a.z + (b.z - a.z) * alpha⟩

/-- `THREE.Vector3.addScaledVector(v, s)`. -/
def Vec3.addScaledVector {α : Type} [Field α] (a v : Vec3 α) (s : α) :
    Vec3 α := ⟨a.x + v.x * s, a.y + v.y * s, a.z + v.z * s⟩

/-- `THREE.Vector3.length`. -/
noncomputable def Vec3.length (v : Vec3 ℝ) : ℝ := Real.sqrt v.lengthSq

/-- `THREE.Vector3.distanceTo`. -/
noncomputable def Vec3.distanceTo (a b : Vec3 ℝ) : ℝ := (a.sub b).length

open Classical in
/-- `THREE.Vector3.normalize`: divides by `length || 1`, i.e. leaves the
vector unchanged when its length is 0. -/
noncomputable def Vec3.normalize (v : Vec3 ℝ) : Vec3 ℝ :=
  let l := v.length
  if l = 0 then v else ⟨v.x / l, v.y / l, v.z / l⟩

/-- `Math.round` (round half toward positive infinity), on any ordered
field with a floor. -/
def jsRound {α : Type} [LinearOrderedField α] [FloorRing α] (x : α) : ℤ :=
  ⌊x + 1 / 2⌋

/-- `Math.round` on `ℝ`. -/
noncomputable def jsRoundR (x : ℝ) : ℤ := jsRound x

/-- `THREE.MathUtils.clamp(value, min, max)`. -/
def clampR (value lo hi : ℝ) : ℝ := max lo (min hi value)

/-- `downsampleEvenly(items, maxCount)`.  The index arithmetic
(`Math.round((items.length - 1) * t)`) is exact rational arithmetic on
integers, carried out in `ℚ`.  The source's out-parameter-free indexing
`items[index]` is always in bounds; the head of the list serves as the
(unreachable) `getD` default. -/
def downsampleEvenly {T : Type} (items : List T) (maxCount : ℕ) : List T :=
  if maxCount = 0 then []
  else if items.length ≤ maxCount then items
  else
    match items with
    | [] => []
    | x :: _ =>
        (List.range maxCount).map fun (i : ℕ) =>
          let t : ℚ := if maxCount = 1 then 0.5
            else (i : ℚ) / ((maxCount : ℚ) - 1)
          let index := jsRound (((items.length : ℚ) - 1) * t)
          items.getD index.toNat x

/-- The context of rig synthesis inside the model-load callback: the
largest model bounding-box dimension and the ground aim height
(`box.min.y + 0.1`). -/
structure RigContext where
  maxDim : ℝ
  groundY : ℝ

/-- `const edgeEmitterDistance = Math.max(maxDim * 0.175, 24)`. -/
noncomputable def edgeEmitterDistance (c : RigContext) : ℝ :=
  max (c.maxDim * 0.175) 24

/-- `const baseEmitterDistance = Math.max(maxDim * 0.0875, 12)`. -/
noncomputable def baseEmitterDistance (c : RigContext) : ℝ :=
  max (c.maxDim * 0.0875) 12

/-- `const edgeMinIntensity = Math.max(maxDim * 3, 2500)`. -/
noncomputable def edgeMinIntensity (c : RigContext) : ℝ :=
  max (c.maxDim * 3) 2500

/-- `const baseMinIntensity = Math.max(maxDim * 4, 3500)`. -/
noncomputable def baseMinIntensity (c : RigContext) : ℝ :=
  max (c.maxDim * 4) 3500

/-- `const edgeTargetGroundLux = 8`. -/
def edgeTargetGroundLux : ℝ := 8

/-- `const baseTargetGroundLux = 11`. -/
def baseTargetGroundLux : ℝ := 11

/-- `const edgeThrowPadding = 4.0`. -/
def edgeThrowPadding : ℝ := 4.0

/-- `const baseThrowPadding = 4.0`. -/
def baseThrowPadding : ℝ := 4.0

/-- `const throwExtensionScale = 1.1`. -/
def throwExtensionScale : ℝ := 1.1

/-- `const fallbackEdgeLineSegmentCount = 3`. -/
def fallbackEdgeLineSegmentCount : ℝ := 3

/-- `const guideEdgeLightFractions = [1 / 3, 2 / 3]`. -/
noncomputable def guideEdgeLightFractions : List ℝ := [1 / 3, 2 / 3]

/-- `const guideEdgeLineSegmentCount = guideEdgeLightFractions.length`. -/
noncomputable def guideEdgeLineSegmentCount : ℝ :=
  (guideEdgeLightFractions.length : ℝ)

/-- `const edgeLineLength = Math.max(maxDim * 0.16, 24)`. -/
noncomputable def edgeLineLength (c : RigContext) : ℝ :=
  max (c.maxDim * 0.16) 24

/-- `const maxEdgeEmitters = 4`. -/
def maxEdgeEmitters : ℕ := 4

/-- `const maxBaseEmitters = 0`. -/
def maxBaseEmitters : ℕ := 0

open Classical in
/-- `segmentFractions?.length ? segmentFractions.map(clamp) : null` — an
empty fractions array is falsy and degrades to `null`. -/
noncomputable def normalizedRigFractions
    (segmentFractions : Option (List ℝ)) : Option (List ℝ) :=
  match segmentFractions with
  | some fs => if fs.length ≠ 0 then some (fs.map fun f => clampR f 0 1)
      else none
  | none => none

/-- `normalizedFractions?.length ?? Math.max(1, Math.round(segmentCount))`. -/
noncomputable def normalizedRigSegmentCount (segmentCount : ℝ)
    (segmentFractions : Option (List ℝ)) : ℕ :=
  match normalizedRigFractions segmentFractions with
  | some fs => fs.length
  | none => max 1 (jsRoundR segmentCount).toNat

open Classical in
/-- `addEdgeEmitterRig(rigStart, rigEnd, sourceObject, phase,
followSourceVisibility, segmentCount, segmentFractions?)`.  The source
object is represented by its visibility flag.  The spot light's static
spatial fields (position, aim target, throw distance) and the
shadow-caster bookkeeping (a mutable cross-rig counter) are not modelled:
no claim refers to them.  Everything observable by the claims — segment
layout and therefore throw-to-ground, per-segment phase, and the derived
`baseIntensity` — follows the source line by line. -/
noncomputable def addEdgeEmitterRig (ctx : RigContext)
    (rigStart rigEnd : Vec3 ℝ) (sourceVisible : Bool) (phase : ℝ)
    (followSourceVisibility : Bool) (segmentCount : ℝ)
    (segmentFractions : Option (List ℝ)) : List EmitterLight :=
  let rigDirection0 := (rigEnd.sub rigStart).setY 0
  let rigDirection1 :=
    if rigDirection0.lengthSq ≤ 1e-6 then (⟨1, 0, 0⟩ : Vec3 ℝ)
    else rigDirection0
  let rigDirection := rigDirection1.normalize
  let normalizedFractions := normalizedRigFractions segmentFractions
  let normalizedSegmentCount :=
    normalizedRigSegmentCount segmentCount segmentFractions
  let segmentPositions : List (Vec3 ℝ) :=
    match normalizedFractions with
    | some fs => fs.map fun fraction => rigStart.lerp rigEnd fraction
    | none =>
        let horizontalSpan := (rigStart.setY 0).distanceTo (rigEnd.setY 0)
        let rigLength := max horizontalSpan (edgeLineLength ctx)
        let segmentSpacing :=
          if 1 < normalizedSegmentCount then
            rigLength / ((normalizedSegmentCount : ℝ) - 1)
          else 0
        let segmentCenter := ((normalizedSegmentCount : ℝ) - 1) * 0.5
        let rigCenter := rigStart.lerp rigEnd 0.5
        (List.range normalizedSegmentCount).map fun (segmentIndex : ℕ) =>
          rigCenter.addScaledVector rigDirection
            (((segmentIndex : ℝ) - segmentCenter) * segmentSpacing)
  (List.range normalizedSegmentCount).map fun segmentIndex =>
    let segmentPosition := segmentPositions.getD segmentIndex ⟨0, 0, 0⟩
    let lightPos : Vec3 ℝ :=
      ⟨segmentPosition.x,
       segmentPosition.y + max (ctx.maxDim * 0.015) 0.8,
       segmentPosition.z⟩
    let targetPos : Vec3 ℝ := ⟨segmentPosition.x, ctx.groundY, segmentPosition.z⟩
    let throwToGround := lightPos.distanceTo targetPos
    let effectiveDistance := (throwToGround + edgeThrowPadding) * throwExtensionScale
    let photometricIntensity :=
      edgeTargetGroundLux * effectiveDistance * effectiveDistance
    let emitterRigIntensity := max (edgeMinIntensity ctx) photometricIntensity
    let emitterBaseIntensity := emitterRigIntensity / (normalizedSegmentCount : ℝ)
    { kind := .spot, layerType := .edgeLed,
      followSourceVisibility := followSourceVisibility,
      sourceVisible := sourceVisible,
      phase := jsModR
        (phase + (segmentIndex : ℝ) / max ((normalizedSegmentCount : ℝ) * 6) 1) 1,
      baseIntensity := emitterBaseIntensity,
      lightVisible := true,
      lightIntensity := emitterBaseIntensity,
      lightColor := .rgbHex 0xF7B5CD }

/-- `addBaseEmitter(position, sourceObject, phase)`; same modelling
conventions as `addEdgeEmitterRig`. -/
noncomputable def addBaseEmitter (ctx : RigContext) (position : Vec3 ℝ)
    (sourceVisible : Bool) (phase : ℝ) : EmitterLight :=
  let lightPos : Vec3 ℝ :=
    ⟨position.x, position.y + max (ctx.maxDim * 0.01) 0.35, position.z⟩
  let targetPos : Vec3 ℝ := ⟨position.x, ctx.groundY, position.z⟩
  let throwToGround := lightPos.distanceTo targetPos
  let effectiveDistance := (throwToGround + baseThrowPadding) * throwExtensionScale
  let photometricIntensity :=
    baseTargetGroundLux * effectiveDistance * effectiveDistance
  let emitterBaseIntensity := max (baseMinIntensity ctx) photometricIntensity
  { kind := .spot, layerType := .baseLights, followSourceVisibility := true,
    sourceVisible := sourceVisible, phase := phase,
    baseIntensity := emitterBaseIntensity, lightVisible := true,
    lightIntensity := emitterBaseIntensity, lightColor := .rgbHex 0xF7B5CD }

/-- `const washBaseIntensity = 100`. -/
def washBaseIntensity : ℝ := 100

/-- `addWashEmitter(position, sourceObject, phase)`: an omnidirectional
point light of constant base intensity (its position plays no role in any
claim and is dropped along with the other spatial fields). -/
noncomputable def addWashEmitter (ctx : RigContext) (position : Vec3 ℝ)
    (sourceVisible : Bool) (phase : ℝ) : EmitterLight :=
  { kind := .point, layerType := .washLights, followSourceVisibility := true,
    sourceVisible := sourceVisible, phase := phase,
    baseIntensity := washBaseIntensity, lightVisible := true,
    lightIntensity := washBaseIntensity, lightColor := .rgbHex 0x5CA8FF }

/-- One entry of the `edgeCandidates` list: a sampled point on an edge-LED
mesh, its animation phase, and the mesh's horizontal axis direction. -/
structure EdgeCandidate (α : Type) where
  sourceVisible : Bool
  point : Vec3 α
  phase : α
  direction : Vec3 α
deriving DecidableEq, Repr

/-- One entry of the `baseCandidates` list. -/
structure BaseCandidate (α : Type) where
  sourceVisible : Bool
  point : Vec3 α
  phase : α
deriving DecidableEq, Repr

/-- One entry of the `washCandidates` list (a `null` source object is
replaced by a dummy always-visible object in the source, hence
`sourceVisible = true` there). -/
structure WashCandidate (α : Type) where
  sourceVisible : Bool
  point : Vec3 α
  phase : α
deriving DecidableEq, Repr

/-- One entry of the `edgeGuideRigs` list (the source calls the second
point `end`, a reserved word here). -/
structure GuideRig (α : Type) where
  start : Vec3 α
  endPoint : Vec3 α
  sourceVisible : Bool
  phase : α
deriving DecidableEq, Repr

/-- `edgeCandidates.reduce((highest, c) => Math.max(highest, c.point.y),
-Infinity)`, with `-Infinity` modelled as `⊥` in `WithBot`. -/
def highestEdgeY {α : Type} [LinearOrder α]
    (cands : List (EdgeCandidate α)) : WithBot α :=
  cands.foldl (fun h c => max h (c.point.y : WithBot α)) ⊥

/-- `const canopyBand = Math.max(maxDim * 0.08, 5)`. -/
def canopyBand {α : Type} [LinearOrderedField α] (maxDim : α) : α :=
  max (maxDim * 0.08) 5

/-- `edgeCandidates.filter(c => highestEdgeY - c.point.y <= canopyBand)`;
over `WithBot` the subtraction-free equivalent `highestEdgeY ≤ c.point.y +
canopyBand` is used (`-Infinity - y <= band` is true just as `⊥ ≤ _`). -/
def canopyEdgeCandidates {α : Type} [LinearOrderedField α]
    (cands : List (EdgeCandidate α)) (band : α) : List (EdgeCandidate α) :=
  cands.filter fun c =>
    decide (highestEdgeY cands ≤ ((c.point.y + band : α) : WithBot α))

open Classical in
/-- The emitter-synthesis pipeline of the load callback, from the prepared
candidate lists to the final `emissiveEmitterLights` array: guide rigs when
any exist, otherwise the canopy-band fallback over the edge candidates;
then the base emitters over the downsampled base candidates; then the wash
emitters. -/
noncomputable def synthesizeEmitters (ctx : RigContext)
    (guideRigs : List (GuideRig ℝ)) (edgeCands : List (EdgeCandidate ℝ))
    (baseCands : List (BaseCandidate ℝ)) (washCands : List (WashCandidate ℝ)) :
    List EmitterLight :=
  let edgePart :=
    if 0 < guideRigs.length then
      guideRigs.flatMap fun g =>
        addEdgeEmitterRig ctx g.start g.endPoint g.sourceVisible g.phase false
          guideEdgeLineSegmentCount (some guideEdgeLightFractions)
    else
      let canopy := canopyEdgeCandidates edgeCands (canopyBand ctx.maxDim)
      (downsampleEvenly canopy maxEdgeEmitters).flatMap fun c =>
        let rigHalf := edgeLineLength ctx * 0.5
        addEdgeEmitterRig ctx (c.point.addScaledVector c.direction (-rigHalf))
          (c.point.addScaledVector c.direction rigHalf) c.sourceVisible c.phase
          true fallbackEdgeLineSegmentCount none
  let basePart := (downsampleEvenly baseCands maxBaseEmitters).map fun c =>
    addBaseEmitter ctx c.point c.sourceVisible c.phase
  let washPart := washCands.map fun c =>
    addWashEmitter ctx c.point c.sourceVisible c.phase
  edgePart ++ basePart ++ washPart

/-- A coordinate axis name, as returned by `getLargestAxisName`. -/
inductive Axis where
  | x
  | y
  | z
deriving DecidableEq, Repr

/-- `point[axis]`. -/
def Vec3.comp {α : Type} (v : Vec3 α) : Axis → α
  | .x => v.x
  | .y => v.y
  | .z => v.z

/-- `getLargestAxisName(size)`. -/
def getLargestAxisName {α : Type} [LinearOrder α] (size : Vec3 α) : Axis :=
  if size.y ≥ size.x ∧ size.y ≥ size.z then .y
  else if size.z ≥ size.x ∧ size.z ≥ size.y then .z
  else .x

/-- Component-wise minimum, for the bounding box. -/
def Vec3.minC {α : Type} [LinearOrder α] (a b : Vec3 α) : Vec3 α :=
  ⟨min a.x b.x, min a.y b.y, min a.z b.z⟩

/-- Component-wise maximum, for the bounding box. -/
def Vec3.maxC {α : Type} [LinearOrder α] (a b : Vec3 α) : Vec3 α :=
  ⟨max a.x b.x, max a.y b.y, max a.z b.z⟩

/-- `geometry.computeBoundingBox(); boundingBox.getSize(size)` — the
component-wise extent of the vertex list.  For an empty vertex list the
source's box is the degenerate `±Infinity` box and the value is never used
(the sampling loop below runs zero times); `⟨0,0,0⟩` stands in for it. -/
def boundingBoxSize {α : Type} [LinearOrderedField α]
    (vertices : List (Vec3 α)) : Vec3 α :=
  match vertices with
  | [] => ⟨0, 0, 0⟩
  | v :: rest =>
      let lo := rest.foldl Vec3.minC v
      let hi := rest.foldl Vec3.maxC v
      hi.sub lo

/-- The mesh's `matrixWorld` as an affine map (rotation/scale block plus
translation). -/
structure Affine3 where
  m11 : ℚ
  m12 : ℚ
  m13 : ℚ
  m21 : ℚ
  m22 : ℚ
  m23 : ℚ
  m31 : ℚ
  m32 : ℚ
  m33 : ℚ
  tx : ℚ
  ty : ℚ
  tz : ℚ
deriving DecidableEq, Repr

/-- `mesh.localToWorld(point)`: apply the world matrix. -/
def Affine3.apply (T : Affine3) (v : Vec3 ℚ) : Vec3 ℚ :=
  ⟨T.m11 * v.x + T.m12 * v.y + T.m13 * v.z + T.tx,
   T.m21 * v.x + T.m22 * v.y + T.m23 * v.z + T.ty,
   T.m31 * v.x + T.m32 * v.y + T.m33 * v.z + T.tz⟩

/-- A mesh as the sampling functions see it: the `position` attribute, the
optional `uv` attribute, and the world matrix.  Coordinates are in `ℚ` so
that the sampling pipeline stays executable. -/
structure MeshQ where
  vertices : List (Vec3 ℚ)
  uvs : Option (List (ℚ × ℚ))
  world : Affine3
deriving DecidableEq, Repr

/-- `mesh.getWorldPosition(new THREE.Vector3())`: the translation part of
the world matrix. -/
def MeshQ.worldPosition (m : MeshQ) : Vec3 ℚ := m.world.apply ⟨0, 0, 0⟩

/-- `jsRound` on `ℚ`. -/
def jsRoundQ (x : ℚ) : ℤ := jsRound x

/-- JavaScript truncation toward zero on `ℚ`. -/
def jsTruncQ (q : ℚ) : ℤ := if 0 ≤ q then ⌊q⌋ else ⌈q⌉

/-- The JavaScript `%` operator on `ℚ`. -/
def jsModQ (a b : ℚ) : ℚ := a - b * jsTruncQ (a / b)

/-- `sampleMeshWorldPoints(mesh, sampleCount)`: stride-sample the vertex
list (stride `max(1, ⌊count / 2048⌋)`), sort the sampled vertices by their
coordinate along the dominant bounding-box axis (a stable sort, as
JavaScript's `Array.prototype.sort`), then pick `min(sampleCount, n)`
evenly spaced ranks and map them to world space.  The branches for a
non-`BufferGeometry` mesh or a missing `position` attribute (which return
`[worldPosition]`) coincide with the empty-vertex-list fallback here. -/
def sampleMeshWorldPoints (mesh : MeshQ) (sampleCount : ℕ) :
    List (Vec3 ℚ) :=
  if sampleCount = 0 then []
  else
    let size := boundingBoxSize mesh.vertices
    let axis := getLargestAxisName size
    let posCount := mesh.vertices.length
    let step := max 1 (posCount / 2048)
    let sampledVertices := (List.range ((posCount + step - 1) / step)).map
      fun i => mesh.vertices.getD (i * step) ⟨0, 0, 0⟩
    if sampledVertices.isEmpty then [mesh.worldPosition]
    else
      let sorted := sampledVertices.mergeSort
        fun a b => decide (a.comp axis ≤ b.comp axis)
      let cnt := min sampleCount sorted.length
      (List.range cnt).map fun (i : ℕ) =>
        let t : ℚ := if cnt = 1 then 0.5 else (i : ℚ) / ((cnt : ℚ) - 1)
        let index := jsRoundQ (((sorted.length : ℚ) - 1) * t)
        mesh.world.apply (sorted.getD index.toNat ⟨0, 0, 0⟩)

/-- One element of the UV sample list (`EdgeUvSample`). -/
structure EdgeUvSample where
  position : Vec3 ℚ
  u : ℚ
deriving DecidableEq, Repr

/-- `sampleMeshUvWorldPoints(mesh, maxSamples)`: stride-sample world
positions paired with the `u` texture coordinate wrapped into `[0,1)` by
`((u % 1) + 1) % 1`. -/
def sampleMeshUvWorldPoints (mesh : MeshQ) (maxSamples : ℕ) :
    List EdgeUvSample :=
  if maxSamples = 0 then []
  else
    match mesh.uvs with
    | none => []
    | some uvs =>
        let count := min mesh.vertices.length uvs.length
        if count = 0 then []
        else
          let step := max 1 (count / maxSamples)
          (List.range ((count + step - 1) / step)).map fun i =>
            let localPoint := mesh.vertices.getD (i * step) ⟨0, 0, 0⟩
            let localU := (uvs.getD (i * step) (0, 0)).1
            { position := mesh.world.apply localPoint,
              u := jsModQ (jsModQ localU 1 + 1) 1 }

/-- The loop body of `getNearestUvPhase`: replace the running
`(nearestSample, nearestDistanceSq)` pair when the next sample is strictly
closer. -/
def nearestFoldStep (worldPoint : Vec3 ℚ) (best : EdgeUvSample × ℚ)
    (s : EdgeUvSample) : EdgeUvSample × ℚ :=
  let distanceSq := worldPoint.distanceToSquared s.position
  if distanceSq < best.2 then (s, distanceSq) else best

/-- `getNearestUvPhase(worldPoint, uvSamples)`: `null` on an empty sample
list, otherwise the `u` of the first sample at minimal squared distance
(strictly closer samples replace the running best, via
`nearestFoldStep`). -/
def getNearestUvPhase (worldPoint : Vec3 ℚ)
    (uvSamples : List EdgeUvSample) : Option ℚ :=
  match uvSamples with
  | [] => none
  | s0 :: rest =>
      let best := rest.foldl (nearestFoldStep worldPoint)
        (s0, worldPoint.distanceToSquared s0.position)
      some best.1.u

/-- `invertUvPhase(uvPhase) = ((1 - uvPhase) % 1 + 1) % 1`. -/
def invertUvPhase (uvPhase : ℚ) : ℚ :=
  jsModQ (jsModQ (1 - uvPhase) 1 + 1) 1

/-- Spec-side abbreviation: the mesh's vertices sorted (stably) along the
dominant bounding-box axis, exactly as `sampleMeshWorldPoints` sorts them. -/
def dominantAxisSorted (mesh : MeshQ) : List (Vec3 ℚ) :=
  mesh.vertices.mergeSort fun a b =>
    decide (a.comp (getLargestAxisName (boundingBoxSize mesh.vertices)) ≤
      b.comp (getLargestAxisName (boundingBoxSize mesh.vertices)))

/-- A small concrete mesh (three unsorted vertices on the x axis, identity
world transform) used to instantiate the sampler theorem. -/
def c7wmesh : MeshQ :=
  ⟨[⟨0, 0, 0⟩, ⟨2, 0, 0⟩, ⟨1, 0, 0⟩], none,
   ⟨1, 0, 0, 0, 1, 0, 0, 0, 1, 0, 0, 0⟩⟩

/-- A 4096-vertex mesh on the x axis with identity world transform; large
enough that `sampleMeshWorldPoints` stride-subsamples its vertex list. -/
def c7mesh : MeshQ :=
  ⟨(List.range 4096).map (fun (i : ℕ) => ⟨(i : ℚ), 0, 0⟩), none,
   ⟨1, 0, 0, 0, 1, 0, 0, 0, 1, 0, 0, 0⟩⟩

/-- `sin x ∈ [-1, 1]`, packaged for `nlinarith`. -/
theorem sin_bounds (x : ℝ) : -1 ≤ Real.sin x ∧ Real.sin x ≤ 1 :=
  ⟨Real.neg_one_le_sin x, Real.sin_le_one x⟩

/-- Claim C1: for every effect other than `off`, at every time, phase and
speed, the intensity multiplier returned by `evaluateEmitterEffect` is at
least the strictly positive per-effect floor `intensityLowerFloor` (so no
non-`off` effect ever reaches 0), and the pulse-family effects stay within
`[0.3, 1]`, the wave-family within `[0.2, 1]` and the ripple-family within
`[0.1, 1]`. -/
theorem C1_intensity_bounded (e : LightEffect) (time phase speed : ℝ)
    (h : e ≠ .off) :
    (0 < intensityLowerFloor e ∧
      intensityLowerFloor e ≤ (evaluateEmitterEffect e time phase speed).2) ∧
    ((e = .pinkPulse ∨ e = .bluePulse) →
      0.3 ≤ (evaluateEmitterEffect e time phase speed).2 ∧
      (evaluateEmitterEffect e time phase speed).2 ≤ 1) ∧
    ((e = .pinkWave ∨ e = .blueWave ∨ e = .rainbowWave) →
      0.2 ≤ (evaluateEmitterEffect e time phase speed).2 ∧
      (evaluateEmitterEffect e time phase speed).2 ≤ 1) ∧
    ((e = .pinkRipple ∨ e = .blueRipple ∨ e = .rainbowRipple) →
      0.1 ≤ (evaluateEmitterEffect e time phase speed).2 ∧
      (evaluateEmitterEffect e time phase speed).2 ≤ 1) := by
  cases e with
  | off => exact absurd rfl h
  | pinkGlow =>
      refine ⟨⟨by norm_num [intensityLowerFloor], ?_⟩, by simp, by simp, by simp⟩
      simp only [evaluateEmitterEffect, intensityLowerFloor]
      norm_num
  | blueGlow =>
      refine ⟨⟨by norm_num [intensityLowerFloor], ?_⟩, by simp, by simp, by simp⟩
      simp only [evaluateEmitterEffect, intensityLowerFloor]
      norm_num
  | pinkPulse =>
      have hs := sin_bounds (time * speed * 2.0)
      refine ⟨⟨by norm_num [intensityLowerFloor], ?_⟩, fun _ => ⟨?_, ?_⟩, by simp, by simp⟩ <;>
        · simp only [evaluateEmitterEffect, intensityLowerFloor]
          nlinarith [hs.1, hs.2]
  | bluePulse =>
      have hs := sin_bounds (time * speed * 2.0)
      refine ⟨⟨by norm_num [intensityLowerFloor], ?_⟩, fun _ => ⟨?_, ?_⟩, by simp, by simp⟩ <;>
        · simp only [evaluateEmitterEffect, intensityLowerFloor]
          nlinarith [hs.1, hs.2]
  | pinkWave =>
      have hs := sin_bounds (time * speed * 3.0 + phase * TAU)
      refine ⟨⟨by norm_num [intensityLowerFloor], ?_⟩, by simp, fun _ => ⟨?_, ?_⟩, by simp⟩ <;>
        · simp only [evaluateEmitterEffect, intensityLowerFloor]
          nlinarith [hs.1, hs.2]
  | blueWave =>
      have hs := sin_bounds (time * speed * 3.0 + phase * TAU)
      refine ⟨⟨by norm_num [intensityLowerFloor], ?_⟩, by simp, fun _ => ⟨?_, ?_⟩, by simp⟩ <;>
        · simp only [evaluateEmitterEffect, intensityLowerFloor]
          nlinarith [hs.1, hs.2]
  | rainbowWave =>
      have hs := sin_bounds (time * speed * 2.5 + phase * TAU)
      refine ⟨⟨by norm_num [intensityLowerFloor], ?_⟩, by simp, fun _ => ⟨?_, ?_⟩, by simp⟩ <;>
        · simp only [evaluateEmitterEffect, intensityLowerFloor]
          nlinarith [hs.1, hs.2]
  | pinkRipple =>
      have hs := sin_bounds (time * speed * 4.0 - phase * TAU * 2.0)
      refine ⟨⟨by norm_num [intensityLowerFloor], ?_⟩, by simp, by simp, fun _ => ⟨?_, ?_⟩⟩ <;>
        · simp only [evaluateEmitterEffect, intensityLowerFloor]
          nlinarith [hs.1, hs.2]
  | blueRipple =>
      have hs := sin_bounds (time * speed * 4.0 - phase * TAU * 2.0)
      refine ⟨⟨by norm_num [intensityLowerFloor], ?_⟩, by simp, by simp, fun _ => ⟨?_, ?_⟩⟩ <;>
        · simp only [evaluateEmitterEffect, intensityLowerFloor]
          nlinarith [hs.1, hs.2]
  | rainbowRipple =>
      have hs := sin_bounds (time * speed * 3.5 - phase * TAU * 2.0)
      refine ⟨⟨by norm_num [intensityLowerFloor], ?_⟩, by simp, by simp, fun _ => ⟨?_, ?_⟩⟩ <;>
        · simp only [evaluateEmitterEffect, intensityLowerFloor]
          nlinarith [hs.1, hs.2]
  | fire =>
      have h1 := sin_bounds (time * speed * 8.0 + phase * 5.0)
      have h2 := sin_bounds (time * speed * 12.0 + phase * 7.0)
      refine ⟨⟨by norm_num [intensityLowerFloor], ?_⟩, by simp, by simp, by simp⟩
      simp only [evaluateEmitterEffect, intensityLowerFloor]
      nlinarith [h1.1, h1.2, h2.1, h2.2,
        sq_nonneg (Real.sin (time * speed * 8.0 + phase * 5.0) +
          Real.sin (time * speed * 12.0 + phase * 7.0)),
        sq_nonneg (Real.sin (time * speed * 8.0 + phase * 5.0) -
          Real.sin (time * speed * 12.0 + phase * 7.0))]
  | ocean =>
      have h1 := sin_bounds (time * speed * 1.5 + phase * TAU)
      have h2 := sin_bounds (time * speed * 2.3 + phase * TAU * 1.5)
      refine ⟨⟨by norm_num [intensityLowerFloor], ?_⟩, by simp, by simp, by simp⟩
      simp only [evaluateEmitterEffect, intensityLowerFloor]
      nlinarith [h1.1, h1.2, h2.1, h2.2]
  | aurora =>
      have h1 := sin_bounds (time * speed * 0.8 + phase * TAU)
      have h2 := sin_bounds (time * speed * 4.0 + phase * 3.0)
      refine ⟨⟨by norm_num [intensityLowerFloor], ?_⟩, by simp, by simp, by simp⟩
      simp only [evaluateEmitterEffect, intensityLowerFloor]
      nlinarith [h1.1, h1.2, h2.1, h2.2]

/-- Witness for C1 at the concrete input `(pink-pulse, t = 0, phase = 0,
speed = 1)`. -/
theorem C1_intensity_bounded_witness :
    0 < intensityLowerFloor .pinkPulse ∧
    intensityLowerFloor .pinkPulse ≤
      (evaluateEmitterEffect .pinkPulse 0 0 1).2 :=
  (C1_intensity_bounded .pinkPulse 0 0 1 (by decide)).1

/-- Shifting time by `k · (L / |s|)` shifts the scaled sine argument
`time * s * c + off` by an integer multiple of `2π` whenever `L * c` is an
integer multiple of `2π`. -/
theorem sin_term_shift (time s L c off : ℝ) (m : ℤ) (hs : s ≠ 0)
    (hm : L * c = (m : ℝ) * (2 * Real.pi)) (k : ℤ) :
    Real.sin ((time + (k : ℝ) * (L / |s|)) * s * c + off) =
      Real.sin (time * s * c + off) := by
  rcases abs_cases s with ⟨habs, _⟩ | ⟨habs, _⟩
  · have key : (time + (k : ℝ) * (L / |s|)) * s * c + off
        = (time * s * c + off) + ((k * m : ℤ) : ℝ) * (2 * Real.pi) := by
      rw [habs]
      have hLs : L / s * s = L := div_mul_cancel₀ L hs
      push_cast
      calc (time + (k : ℝ) * (L / s)) * s * c + off
          = time * s * c + off + (k : ℝ) * (L / s * s) * c := by ring
        _ = time * s * c + off + (k : ℝ) * L * c := by rw [hLs]
        _ = time * s * c + off + (k : ℝ) * (m : ℝ) * (2 * Real.pi) := by
            rw [mul_assoc ((k : ℝ)) L c, hm]; ring
    rw [key, Real.sin_add_int_mul_two_pi]
  · have key : (time + (k : ℝ) * (L / |s|)) * s * c + off
        = (time * s * c + off) + ((-(k * m) : ℤ) : ℝ) * (2 * Real.pi) := by
      rw [habs]
      have hLs : L / -s * s = -L := by
        rw [div_neg, neg_mul, div_mul_cancel₀ L hs]
      push_cast
      calc (time + (k : ℝ) * (L / -s)) * s * c + off
          = time * s * c + off + (k : ℝ) * (L / -s * s) * c := by ring
        _ = time * s * c + off + (k : ℝ) * (-L) * c := by rw [hLs]
        _ = time * s * c + off + (-((k : ℝ) * (m : ℝ))) * (2 * Real.pi) := by
            rw [show (k : ℝ) * -L * c = -((k : ℝ) * (L * c)) by ring, hm]; ring
    rw [key, Real.sin_add_int_mul_two_pi]

/-- The JavaScript `x % 1` keeps the fractional part up to an integer shift:
its `Int.fract` equals that of the input. -/
theorem fract_jsModR_one (a : ℝ) : Int.fract (jsModR a 1) = Int.fract a := by
  unfold jsModR
  rw [div_one, one_mul]
  exact Int.fract_sub_int a _

/-- Claim C2 (amended): for every effect other than `off` and every speed,
shifting time by any integer multiple of `effectPeriod` (the effect-specific
scaled period divided by `|speed|`) leaves the returned intensity multiplier
unchanged, and for every effect except `rainbow-wave` and `rainbow-ripple`
it leaves the written color unchanged as well. -/
theorem C2_periodicity_amended (e : LightEffect) (he : e ≠ .off)
    (s t φ : ℝ) (k : ℤ) :
    0 < effectPeriod e s ∧
    (evaluateEmitterEffect e (t + k * effectPeriod e s) φ s).2 =
      (evaluateEmitterEffect e t φ s).2 ∧
    (e ≠ .rainbowWave → e ≠ .rainbowRipple →
      (evaluateEmitterEffect e (t + k * effectPeriod e s) φ s).1 =
        (evaluateEmitterEffect e t φ s).1) := by
  refine ⟨?_, ?_⟩
  · unfold effectPeriod
    split
    · norm_num
    · next hs =>
        have h1 : 0 < |s| := abs_pos.mpr hs
        have h2 : 0 < effectPeriodScaled e := by
          cases e <;> simp [effectPeriodScaled] <;> positivity
        positivity
  by_cases hs : s = 0
  · subst hs
    cases e <;>
      simp [evaluateEmitterEffect, effectPeriod, mul_zero, zero_mul]
  cases e with
  | off => exact absurd rfl he
  | pinkGlow => exact ⟨by rfl, fun _ _ => by trivial⟩
  | blueGlow => exact ⟨by rfl, fun _ _ => by trivial⟩
  | pinkPulse =>
      have h := sin_term_shift t s Real.pi 2.0 0 1 hs (by push_cast; ring) k
      simp only [add_zero] at h
      simp only [evaluateEmitterEffect, effectPeriod, if_neg hs, effectPeriodScaled]
      rw [h]
      exact ⟨by rfl, fun _ _ => by trivial⟩
  | bluePulse =>
      have h := sin_term_shift t s Real.pi 2.0 0 1 hs (by push_cast; ring) k
      simp only [add_zero] at h
      simp only [evaluateEmitterEffect, effectPeriod, if_neg hs, effectPeriodScaled]
      rw [h]
      exact ⟨by rfl, fun _ _ => by trivial⟩
  | pinkWave =>
      have h := sin_term_shift t s (2 * Real.pi / 3) 3.0 (φ * TAU) 1 hs
        (by push_cast; ring) k
      simp only [evaluateEmitterEffect, effectPeriod, if_neg hs, effectPeriodScaled]
      rw [h]
      exact ⟨by rfl, fun _ _ => by trivial⟩
  | blueWave =>
      have h := sin_term_shift t s (2 * Real.pi / 3) 3.0 (φ * TAU) 1 hs
        (by push_cast; ring) k
      simp only [evaluateEmitterEffect, effectPeriod, if_neg hs, effectPeriodScaled]
      rw [h]
      exact ⟨by rfl, fun _ _ => by trivial⟩
  | pinkRipple =>
      have h := sin_term_shift t s (Real.pi / 2) 4.0 (-(φ * TAU * 2.0)) 1 hs
        (by push_cast; ring) k
      simp only [← sub_eq_add_neg] at h
      simp only [evaluateEmitterEffect, effectPeriod, if_neg hs, effectPeriodScaled]
      rw [h]
      exact ⟨by rfl, fun _ _ => by trivial⟩
  | blueRipple =>
      have h := sin_term_shift t s (Real.pi / 2) 4.0 (-(φ * TAU * 2.0)) 1 hs
        (by push_cast; ring) k
      simp only [← sub_eq_add_neg] at h
      simp only [evaluateEmitterEffect, effectPeriod, if_neg hs, effectPeriodScaled]
      rw [h]
      exact ⟨by rfl, fun _ _ => by trivial⟩
  | rainbowWave =>
      have h := sin_term_shift t s (4 * Real.pi / 5) 2.5 (φ * TAU) 1 hs
        (by push_cast; ring) k
      simp only [evaluateEmitterEffect, effectPeriod, if_neg hs, effectPeriodScaled]
      rw [h]
      exact ⟨rfl, fun hc _ => absurd rfl hc⟩
  | rainbowRipple =>
      have h := sin_term_shift t s (4 * Real.pi / 7) 3.5 (-(φ * TAU * 2.0)) 1 hs
        (by push_cast; ring) k
      simp only [← sub_eq_add_neg] at h
      simp only [evaluateEmitterEffect, effectPeriod, if_neg hs, effectPeriodScaled]
      rw [h]
      exact ⟨rfl, fun _ hc => absurd rfl hc⟩
  | fire =>
      have h1 := sin_term_shift t s (Real.pi / 2) 8.0 (φ * 5.0) 2 hs
        (by push_cast; ring) k
      have h2 := sin_term_shift t s (Real.pi / 2) 12.0 (φ * 7.0) 3 hs
        (by push_cast; ring) k
      simp only [evaluateEmitterEffect, effectPeriod, if_neg hs, effectPeriodScaled]
      rw [h1, h2]
      exact ⟨by rfl, fun _ _ => by trivial⟩
  | ocean =>
      have h1 := sin_term_shift t s (20 * Real.pi) 1.5 (φ * TAU) 15 hs
        (by push_cast; ring) k
      have h2 := sin_term_shift t s (20 * Real.pi) 2.3 (φ * TAU * 1.5) 23 hs
        (by push_cast; ring) k
      simp only [evaluateEmitterEffect, effectPeriod, if_neg hs, effectPeriodScaled]
      rw [h1, h2]
      exact ⟨by rfl, fun _ _ => by trivial⟩
  | aurora =>
      have h1 := sin_term_shift t s (5 * Real.pi / 2) 0.8 (φ * TAU) 1 hs
        (by push_cast; ring) k
      have h2 := sin_term_shift t s (5 * Real.pi / 2) 4.0 (φ * 3.0) 5 hs
        (by push_cast; ring) k
      simp only [evaluateEmitterEffect, effectPeriod, if_neg hs, effectPeriodScaled]
      rw [h1, h2]
      exact ⟨by rfl, fun _ _ => by trivial⟩

/-- Witness for the amended C2 at the concrete input
`(fire, speed = 1, t = 0, phase = 0, k = 1)`. -/
theorem C2_periodicity_amended_witness :
    0 < effectPeriod .fire 1 ∧
    (evaluateEmitterEffect .fire (0 + (1 : ℤ) * effectPeriod .fire 1) 0 1).2 =
      (evaluateEmitterEffect .fire 0 0 1).2 ∧
    (LightEffect.fire ≠ .rainbowWave → LightEffect.fire ≠ .rainbowRipple →
      (evaluateEmitterEffect .fire (0 + (1 : ℤ) * effectPeriod .fire 1) 0 1).1 =
        (evaluateEmitterEffect .fire 0 0 1).1) :=
  C2_periodicity_amended .fire (by decide) 1 0 0 1

/-- Counterexample refuting claim C2 as stated.  First, because the claimed
period must work for every speed, even `pink-pulse` fails: for any `P > 0`
there is a speed (`π / (2 P)`) at which shifting time by `P` flips the sine.
Second, even at the fixed speed 1, `rainbow-wave` admits no period that
preserves both the intensity and the written color: intensity-periodicity
forces `2.5 P ∈ 2πℤ` while hue-periodicity forces `0.3 P ∈ ℤ`, which would
make `π` rational. -/
theorem C2_counterexample :
    (¬ ∃ P : ℝ, 0 < P ∧ ∀ (t φ sp : ℝ) (k : ℤ),
        (evaluateEmitterEffect .pinkPulse (t + k * P) φ sp).2 =
          (evaluateEmitterEffect .pinkPulse t φ sp).2) ∧
    (¬ ∃ P : ℝ, 0 < P ∧ ∀ (t φ : ℝ) (k : ℤ),
        evaluateEmitterEffect .rainbowWave (t + k * P) φ 1 =
          evaluateEmitterEffect .rainbowWave t φ 1) := by
  constructor
  · rintro ⟨P, hP, h⟩
    have hP' : P ≠ 0 := ne_of_gt hP
    have h1 := h (P / 2) 0 (Real.pi / (2 * P)) 1
    simp only [evaluateEmitterEffect] at h1
    rw [show (P / 2 + ((1 : ℤ) : ℝ) * P) * (Real.pi / (2 * P)) * 2.0
          = Real.pi / 2 + Real.pi by push_cast; field_simp; ring,
        show (P / 2) * (Real.pi / (2 * P)) * 2.0 = Real.pi / 2 by
          field_simp; ring] at h1
    rw [Real.sin_add_pi, Real.sin_pi_div_two] at h1
    norm_num at h1
  · rintro ⟨P, hP, h⟩
    have hsin : ∀ u : ℝ, Real.sin (u * 2.5 + P * 2.5) = Real.sin (u * 2.5) := by
      intro u
      have h' := congrArg Prod.snd (h u 0 1)
      simp only [evaluateEmitterEffect] at h'
      rw [show (u + ((1 : ℤ) : ℝ) * P) * 1 * 2.5 + 0 * TAU
            = u * 2.5 + P * 2.5 by push_cast; ring,
          show u * 1 * 2.5 + 0 * TAU = u * 2.5 by ring] at h'
      linarith
    have hcol : ∀ u : ℝ, Int.fract ((u + P) * 0.3) = Int.fract (u * 0.3) := by
      intro u
      have h' := congrArg Prod.fst (h u 0 1)
      simp only [evaluateEmitterEffect, mkHSL] at h'
      rw [Color.hsl.injEq] at h'
      have h'' := h'.1
      rw [fract_jsModR_one, fract_jsModR_one,
          show (u + ((1 : ℤ) : ℝ) * P) * 1 * 0.3 + 0 = (u + P) * 0.3 by
            push_cast; ring,
          show u * 1 * 0.3 + 0 = u * 0.3 by ring] at h''
      exact h''
    have hcos : Real.cos (P * 2.5) = 1 := by
      have h1 := hsin (Real.pi / 5)
      rw [show Real.pi / 5 * 2.5 = Real.pi / 2 by ring] at h1
      rw [show Real.pi / 2 + P * 2.5 = P * 2.5 + Real.pi / 2 by ring] at h1
      rw [Real.sin_add_pi_div_two, Real.sin_pi_div_two] at h1
      exact h1
    obtain ⟨n, hn⟩ := (Real.cos_eq_one_iff (P * 2.5)).mp hcos
    have hfr : Int.fract (P * 0.3) = Int.fract ((0 : ℝ) * 0.3) := by
      have := hcol 0
      rw [show ((0 : ℝ) + P) * 0.3 = P * 0.3 by ring] at this
      exact this
    have hfr2 : Int.fract (P * 0.3) = Int.fract ((0 : ℝ)) := by
      rw [show ((0 : ℝ)) = (0 : ℝ) * 0.3 by ring]
      exact hfr
    obtain ⟨m, hm⟩ := Int.fract_eq_fract.mp hfr2
    rw [sub_zero] at hm
    have hn0 : n ≠ 0 := by
      rintro rfl
      rw [Int.cast_zero, zero_mul] at hn
      nlinarith
    have key : (m : ℝ) * 25 = 6 * (n : ℝ) * Real.pi := by
      linear_combination (-25 : ℝ) * hm + (-3 : ℝ) * hn
    have h6n : ((6 * n : ℤ) : ℝ) ≠ 0 := by
      push_cast
      simp [hn0]
    have hrat : Real.pi = ((25 * m : ℤ) : ℝ) / ((6 * n : ℤ) : ℝ) := by
      push_cast
      push_cast at h6n
      field_simp
      linarith [key]
    exact (irrational_iff_ne_rational Real.pi).mp irrational_pi (25 * m) (6 * n)
      (by rw [hrat])

/-- Claim C3: switching the linear effect to `off` (here after an update in
which `pink-pulse` was the active effect) restores every linear mesh's
material to its stored powered-down clone, and makes every `edge-led` and
`base-lights` emitter invisible with intensity 0; and
`evaluateEmitterEffect` on `off` returns intensity 0 unconditionally. -/
theorem C3_off_restores (st : LinearLightsState)
    (glow1 t1 s1 sc1 glow t s sc : ℝ) :
    (∀ m ∈ (updateLinearEffect .off glow t s sc
        (updateLinearEffect .pinkPulse glow1 t1 s1 sc1 st)).meshes,
      ∀ om, m.offMaterial = some om → m.material = om) ∧
    (∀ e ∈ (updateLinearEffect .off glow t s sc
        (updateLinearEffect .pinkPulse glow1 t1 s1 sc1 st)).emitters,
      e.layerType = .edgeLed ∨ e.layerType = .baseLights →
      e.lightVisible = false ∧ e.lightIntensity = 0) ∧
    (∀ t2 φ sp : ℝ, (evaluateEmitterEffect .off t2 φ sp).2 = 0) := by
  have hna : ¬(LightEffect.off ≠ LightEffect.off ∧ glow > 0.0001) :=
    fun hc => absurd rfl hc.1
  refine ⟨?_, ?_, fun _ _ _ => rfl⟩
  · intro m hm om hom
    simp only [updateLinearEffect, if_neg hna] at hm
    rcases List.mem_map.mp hm with ⟨a, _, rfl⟩
    cases ha : a.offMaterial with
    | none => simp only [ha] at hom ⊢; exact absurd hom (by simp)
    | some o =>
        simp only [ha] at hom ⊢
        cases hom
        rfl
  · intro e he hlin
    simp only [updateLinearEffect, if_neg hna] at he
    rcases List.mem_map.mp he with ⟨a, _, rfl⟩
    by_cases hl : a.layerType = .edgeLed ∨ a.layerType = .baseLights
    · have hv : shouldEmitterBeVisible a .off = false := by
        simp [shouldEmitterBeVisible]
      simp [hl, hv]
    · simp only [if_neg hl] at hlin
      exact absurd hlin hl

/-- Witness for C3 on a one-mesh, one-emitter state: the mesh ends on its
stored powered-down clone (token 1) and the edge emitter ends invisible
with intensity 0. -/
theorem C3_off_restores_witness :
    ((⟨1, some 1, some 2⟩ : LinearMeshState) ∈
      (updateLinearEffect .off 1 0 1 1
        (updateLinearEffect .pinkPulse 1 0 1 1
          ⟨[⟨0, some 1, some 2⟩],
           [⟨.spot, .edgeLed, true, true, 0, 1, true, 5, .rgbHex 0⟩]⟩)).meshes ∧
      (⟨1, some 1, some 2⟩ : LinearMeshState).material = 1) ∧
    ((⟨.spot, .edgeLed, true, true, 0, 1, false, 0, .rgbHex 0xF7B5CD⟩ :
        EmitterLight) ∈
      (updateLinearEffect .off 1 0 1 1
        (updateLinearEffect .pinkPulse 1 0 1 1
          ⟨[⟨0, some 1, some 2⟩],
           [⟨.spot, .edgeLed, true, true, 0, 1, true, 5, .rgbHex 0⟩]⟩)).emitters ∧
      (⟨.spot, .edgeLed, true, true, 0, 1, false, 0, .rgbHex 0xF7B5CD⟩ :
        EmitterLight).lightVisible = false) := by
  have hmem1 : (⟨1, some 1, some 2⟩ : LinearMeshState) ∈
      (updateLinearEffect .off 1 0 1 1
        (updateLinearEffect .pinkPulse 1 0 1 1
          ⟨[⟨0, some 1, some 2⟩],
           [⟨.spot, .edgeLed, true, true, 0, 1, true, 5, .rgbHex 0⟩]⟩)).meshes := by
    norm_num [updateLinearEffect, shouldEmitterBeVisible, (by decide : ¬ (LightEffect.pinkPulse = LightEffect.off))]
  have hmem2 : (⟨.spot, .edgeLed, true, true, 0, 1, false, 0,
        .rgbHex 0xF7B5CD⟩ : EmitterLight) ∈
      (updateLinearEffect .off 1 0 1 1
        (updateLinearEffect .pinkPulse 1 0 1 1
          ⟨[⟨0, some 1, some 2⟩],
           [⟨.spot, .edgeLed, true, true, 0, 1, true, 5, .rgbHex 0⟩]⟩)).emitters := by
    norm_num [updateLinearEffect, shouldEmitterBeVisible, evaluateEmitterEffect, (by decide : ¬ (LightEffect.pinkPulse = LightEffect.off))]
  refine ⟨⟨hmem1, ?_⟩, ⟨hmem2, ?_⟩⟩
  · exact (C3_off_restores
      ⟨[⟨0, some 1, some 2⟩],
       [⟨.spot, .edgeLed, true, true, 0, 1, true, 5, .rgbHex 0⟩]⟩
      1 0 1 1 1 0 1 1).1 _ hmem1 1 rfl
  · exact ((C3_off_restores
      ⟨[⟨0, some 1, some 2⟩],
       [⟨.spot, .edgeLed, true, true, 0, 1, true, 5, .rgbHex 0⟩]⟩
      1 0 1 1 1 0 1 1).2.1 _ hmem2 (Or.inl rfl)).1

/-- Claim C5 (amended): with the Edge LED glow intensity at or below the
`0.0001` threshold, the linear meshes revert to their stored powered-down
materials (exactly as when the effect is `off`), but the linear emitter
lights are *not* equated to the `off` state: the emitter update ignores the
glow intensity entirely, so they keep following the selected effect. -/
theorem C5_low_glow_amended (st : LinearLightsState) (effect : LightEffect)
    (glow glow2 t s sc : ℝ) (hg : glow ≤ 0.0001) :
    (∀ m ∈ (updateLinearEffect effect glow t s sc st).meshes,
      ∀ om, m.offMaterial = some om → m.material = om) ∧
    (updateLinearEffect effect glow t s sc st).emitters =
      (updateLinearEffect effect glow2 t s sc st).emitters := by
  have hna : ¬(effect ≠ LightEffect.off ∧ glow > 0.0001) :=
    fun hc => absurd hc.2 (not_lt.mpr hg)
  constructor
  · intro m hm om hom
    simp only [updateLinearEffect, if_neg hna] at hm
    rcases List.mem_map.mp hm with ⟨a, _, rfl⟩
    cases ha : a.offMaterial with
    | none => simp only [ha] at hom ⊢; exact absurd hom (by simp)
    | some o =>
        simp only [ha] at hom ⊢
        cases hom
        rfl
  · simp only [updateLinearEffect]

/-- Witness for the amended C5: at glow 0 with `pink-pulse` selected, the
single mesh reverts to its powered-down clone, and the emitter list agrees
with the one computed at glow 1. -/
theorem C5_low_glow_amended_witness :
    (0 : ℝ) ≤ 0.0001 ∧
    ((⟨1, some 1, some 2⟩ : LinearMeshState) ∈
      (updateLinearEffect .pinkPulse 0 0 1 1
        ⟨[⟨0, some 1, some 2⟩], []⟩).meshes ∧
      (⟨1, some 1, some 2⟩ : LinearMeshState).material = 1) ∧
    (updateLinearEffect .pinkPulse 0 0 1 1
        ⟨[⟨0, some 1, some 2⟩], []⟩).emitters =
      (updateLinearEffect .pinkPulse 1 0 1 1
        ⟨[⟨0, some 1, some 2⟩], []⟩).emitters := by
  have hg : (0 : ℝ) ≤ 0.0001 := by norm_num
  have hmem : (⟨1, some 1, some 2⟩ : LinearMeshState) ∈
      (updateLinearEffect .pinkPulse 0 0 1 1
        ⟨[⟨0, some 1, some 2⟩], []⟩).meshes := by
    norm_num [updateLinearEffect]
  refine ⟨hg, ⟨hmem, ?_⟩, ?_⟩
  · exact (C5_low_glow_amended ⟨[⟨0, some 1, some 2⟩], []⟩ .pinkPulse
      0 1 0 1 1 hg).1 _ hmem 1 rfl
  · exact (C5_low_glow_amended ⟨[⟨0, some 1, some 2⟩], []⟩ .pinkPulse
      0 1 0 1 1 hg).2

/-- Counterexample refuting claim C5 as stated: with glow intensity 0 and
`pink-pulse` selected, the single edge emitter stays visible with a nonzero
intensity after the update, whereas selecting `off` makes it invisible — so
the linear group's lighting state is *not* the same as for `off`. -/
theorem C5_counterexample :
    ((updateLinearEffect .pinkPulse 0 0 1 1
        ⟨[], [⟨.spot, .edgeLed, true, true, 0, 1, true, 5, .rgbHex 0⟩]⟩).emitters.map
      fun e => e.lightVisible) = [true] ∧
    ((updateLinearEffect .off 0 0 1 1
        ⟨[], [⟨.spot, .edgeLed, true, true, 0, 1, true, 5, .rgbHex 0⟩]⟩).emitters.map
      fun e => e.lightVisible) = [false] ∧
    ((updateLinearEffect .pinkPulse 0 0 1 1
        ⟨[], [⟨.spot, .edgeLed, true, true, 0, 1, true, 5, .rgbHex 0⟩]⟩).emitters.map
      fun e => e.lightIntensity) ≠ [0] := by
  refine ⟨?_, ?_, ?_⟩
  · norm_num [updateLinearEffect, shouldEmitterBeVisible, (by decide : ¬ (LightEffect.pinkPulse = LightEffect.off))]
  · norm_num [updateLinearEffect, shouldEmitterBeVisible, (by decide : ¬ (LightEffect.pinkPulse = LightEffect.off))]
  · norm_num [updateLinearEffect, shouldEmitterBeVisible, evaluateEmitterEffect,
      Real.sin_zero, (by decide : ¬ (LightEffect.pinkPulse = LightEffect.off))]

/-- `normalizedRigFractions` only returns a nonempty list. -/
theorem normalizedRigFractions_ne_nil (fr : Option (List ℝ)) (fs : List ℝ)
    (h : normalizedRigFractions fr = some fs) : fs.length ≠ 0 := by
  cases fr with
  | none => simp [normalizedRigFractions] at h
  | some fs0 =>
      by_cases h0 : fs0.length = 0
      · simp [normalizedRigFractions, h0] at h
      · simp only [normalizedRigFractions, if_pos h0, Option.some.injEq] at h
        subst h
        simpa using h0

/-- A rig always has at least one segment. -/
theorem one_le_normalizedRigSegmentCount (segmentCount : ℝ)
    (fr : Option (List ℝ)) : 1 ≤ normalizedRigSegmentCount segmentCount fr := by
  unfold normalizedRigSegmentCount
  cases hfr : normalizedRigFractions fr with
  | none => exact le_max_left 1 _
  | some fs => exact Nat.one_le_iff_ne_zero.mpr (normalizedRigFractions_ne_nil fr fs hfr)

/-- Claim C4 (amended): every base emitter's stored `baseIntensity` meets the
`baseMinIntensity` floor, and for edge rigs the floor is applied to the
*rig-level* intensity before it is divided across the segments: every edge
emitter's stored `baseIntensity` is at least `edgeMinIntensity / segments`,
and multiplied back by the segment count it meets `edgeMinIntensity` — but
the per-emitter value itself drops below the floor on multi-segment rigs. -/
theorem C4_intensity_floor_amended (ctx : RigContext)
    (rigStart rigEnd position : Vec3 ℝ) (sv sv2 fv : Bool)
    (ph ph2 segmentCount : ℝ) (segmentFractions : Option (List ℝ)) :
    baseMinIntensity ctx ≤ (addBaseEmitter ctx position sv2 ph2).baseIntensity ∧
    (addEdgeEmitterRig ctx rigStart rigEnd sv ph fv segmentCount
        segmentFractions).Forall fun e =>
      edgeMinIntensity ctx /
          (normalizedRigSegmentCount segmentCount segmentFractions : ℝ) ≤
        e.baseIntensity ∧
      edgeMinIntensity ctx ≤
        e.baseIntensity *
          (normalizedRigSegmentCount segmentCount segmentFractions : ℝ) := by
  have hn1 := one_le_normalizedRigSegmentCount segmentCount segmentFractions
  have hnpos : (0 : ℝ) <
      (normalizedRigSegmentCount segmentCount segmentFractions : ℝ) := by
    exact_mod_cast Nat.lt_of_lt_of_le Nat.zero_lt_one hn1
  constructor
  · simp only [addBaseEmitter]
    exact le_max_left _ _
  · rw [List.forall_iff_forall_mem]
    intro e he
    simp only [addEdgeEmitterRig] at he
    rcases List.mem_map.mp he with ⟨i, _, rfl⟩
    constructor
    · dsimp only
      gcongr
      exact le_max_left _ _
    · dsimp only
      rw [div_mul_cancel₀ _ (ne_of_gt hnpos)]
      exact le_max_left _ _

/-- Counterexample refuting claim C4 as stated: a degenerate short-throw
fallback rig (3 segments) in a model of `maxDim = 100` stores
`baseIntensity = 2500 / 3` on each of its three emitters, strictly below
the declared edge floor `edgeMinIntensity = 2500`. -/
theorem C4_counterexample :
    ((addEdgeEmitterRig ⟨100, 0⟩ ⟨0, 0, 0⟩ ⟨0, 0, 0⟩ true 0 true 3 none).map
      fun e => e.baseIntensity) = [2500 / 3, 2500 / 3, 2500 / 3] ∧
    (2500 / 3 : ℝ) < edgeMinIntensity ⟨100, 0⟩ := by
  have hround : jsRoundR 3 = 3 := by norm_num [jsRoundR, jsRound]
  have hcount : normalizedRigSegmentCount 3 none = 3 := by
    norm_num [normalizedRigSegmentCount, normalizedRigFractions, hround,
      (by decide : Int.toNat 3 = 3)]
  have hsqrt1 : Real.sqrt ((9 : ℝ) / 4) = 3 / 2 := by
    rw [show (9 / 4 : ℝ) = (3 / 2) ^ 2 by norm_num, Real.sqrt_sq (by norm_num)]
  constructor
  · norm_num [addEdgeEmitterRig, hcount, normalizedRigFractions,
      Vec3.sub, Vec3.setY, Vec3.lengthSq, Vec3.normalize, Vec3.length,
      Vec3.distanceTo, Vec3.lerp, Vec3.addScaledVector, edgeLineLength,
      edgeMinIntensity, edgeTargetGroundLux, edgeThrowPadding,
      throwExtensionScale, Real.sqrt_zero, Real.sqrt_one, hsqrt1,
      List.range_succ]
  · norm_num [edgeMinIntensity]

/-- Every emitter produced by `addEdgeEmitterRig` is a spot light of the
`edge-led` group carrying the `followSourceVisibility` flag it was called
with. -/
theorem addEdgeEmitterRig_fields (ctx : RigContext) (a b : Vec3 ℝ)
    (sv : Bool) (ph : ℝ) (fv : Bool) (sc : ℝ) (fr : Option (List ℝ)) :
    (addEdgeEmitterRig ctx a b sv ph fv sc fr).Forall fun e =>
      e.kind = .spot ∧ e.layerType = .edgeLed ∧
      e.followSourceVisibility = fv := by
  rw [List.forall_iff_forall_mem]
  intro e he
  simp only [addEdgeEmitterRig] at he
  rcases List.mem_map.mp he with ⟨i, _, rfl⟩
  exact ⟨rfl, rfl, rfl⟩

/-- `downsampleEvenly` with a cap of 0 always yields the empty list. -/
theorem downsampleEvenly_zero {T : Type} (items : List T) :
    downsampleEvenly items 0 = [] := by
  simp [downsampleEvenly]

/-- Claim C6 (amended): `shouldEmitterBeVisible` implements exactly the
claimed rule (`off` → invisible; not following source visibility → visible;
otherwise the source object's visibility), and it is what the per-frame
pass, the effect-change passes (the linear-effect pass for linear emitters
and the wash-effect pass for wash emitters, each with that group's own
effect) and the layer-change pass assign to each light's visibility — but
the layer-change pass passes the *linear* effect for every emitter, wash
emitters included, instead of the emitter's own group effect.  Emitters
synthesized from guide rigs are created with
`followSourceVisibility = false`. -/
theorem C6_visibility_amended :
    (∀ (e : EmitterLight) (effect : LightEffect),
      (effect = .off → shouldEmitterBeVisible e effect = false) ∧
      (effect ≠ .off → e.followSourceVisibility = false →
        shouldEmitterBeVisible e effect = true) ∧
      (effect ≠ .off → e.followSourceVisibility = true →
        shouldEmitterBeVisible e effect = e.sourceVisible)) ∧
    (∀ (lin wash : LightEffect) (t s sc wsc : ℝ) (es : List EmitterLight),
      (updateEmittersFrame lin wash t s sc wsc es).map (fun e => e.lightVisible) =
        es.map fun e =>
          shouldEmitterBeVisible e
            (if e.layerType = .washLights then wash else lin)) ∧
    (∀ (lin : LightEffect) (es : List EmitterLight),
      (updateEmittersOnLayersChange lin es).map (fun e => e.lightVisible) =
        es.map fun e => shouldEmitterBeVisible e lin) ∧
    (∀ (effect : LightEffect) (glow t s sc : ℝ) (st : LinearLightsState),
      (updateLinearEffect effect glow t s sc st).emitters.map
          (fun e => e.lightVisible) =
        st.emitters.map fun e =>
          if e.layerType = .edgeLed ∨ e.layerType = .baseLights then
            shouldEmitterBeVisible e effect
          else e.lightVisible) ∧
    (∀ (wash : LightEffect) (t s wsc : ℝ) (st : LinearLightsState),
      (updateWashEffect wash t s wsc st).emitters.map
          (fun e => e.lightVisible) =
        st.emitters.map fun e =>
          if e.layerType = .washLights then
            shouldEmitterBeVisible e wash
          else e.lightVisible) ∧
    (∀ (ctx : RigContext) (gs : List (GuideRig ℝ))
        (ec : List (EdgeCandidate ℝ)) (bc : List (BaseCandidate ℝ))
        (wc : List (WashCandidate ℝ)),
      0 < gs.length →
      (synthesizeEmitters ctx gs ec bc wc).Forall fun e =>
        e.layerType = .edgeLed → e.followSourceVisibility = false) := by
  refine ⟨?_, ?_, ?_, ?_, ?_, ?_⟩
  · intro e effect
    refine ⟨fun h => ?_, fun h hf => ?_, fun h hf => ?_⟩
    · subst h; simp [shouldEmitterBeVisible]
    · simp [shouldEmitterBeVisible, h, hf]
    · simp [shouldEmitterBeVisible, h, hf]
  · intro lin wash t s sc wsc es
    have hpt : ∀ e : EmitterLight,
        (updateEmitterFrame lin wash t s sc wsc e).lightVisible =
          shouldEmitterBeVisible e
            (if e.layerType = .washLights then wash else lin) := by
      intro e
      unfold updateEmitterFrame
      cases hv : shouldEmitterBeVisible e
          (if e.layerType = .washLights then wash else lin) <;>
        simp [hv]
    simp only [updateEmittersFrame, List.map_map]
    exact List.map_congr_left fun e _ => hpt e
  · intro lin es
    simp [updateEmittersOnLayersChange, List.map_map, Function.comp]
  · intro effect glow t s sc st
    have hpt : ∀ e : EmitterLight,
        ((if e.layerType = .edgeLed ∨ e.layerType = .baseLights then
            let visible := shouldEmitterBeVisible e effect
            if visible then
              let result := evaluateEmitterEffect effect t e.phase s
              { e with lightVisible := true, lightColor := result.1,
                       lightIntensity := e.baseIntensity * result.2 * sc }
            else { e with lightVisible := false, lightIntensity := 0 }
          else e) : EmitterLight).lightVisible =
          if e.layerType = .edgeLed ∨ e.layerType = .baseLights then
            shouldEmitterBeVisible e effect
          else e.lightVisible := by
      intro e
      by_cases hl : e.layerType = .edgeLed ∨ e.layerType = .baseLights
      · cases hv : shouldEmitterBeVisible e effect <;> simp [hl, hv]
      · simp [hl]
    simp only [updateLinearEffect, List.map_map]
    exact List.map_congr_left fun e _ => hpt e
  · intro wash t s wsc st
    have hpt : ∀ e : EmitterLight,
        ((if e.layerType = .washLights then
            let visible := shouldEmitterBeVisible e wash
            if visible then
              let result := evaluateEmitterEffect wash t e.phase s
              { e with lightVisible := true, lightColor := result.1,
                       lightIntensity := e.baseIntensity * result.2 * wsc }
            else { e with lightVisible := false, lightIntensity := 0 }
          else e) : EmitterLight).lightVisible =
          if e.layerType = .washLights then
            shouldEmitterBeVisible e wash
          else e.lightVisible := by
      intro e
      by_cases hl : e.layerType = .washLights
      · cases hv : shouldEmitterBeVisible e wash <;> simp [hl, hv]
      · simp [hl]
    simp only [updateWashEffect, List.map_map]
    exact List.map_congr_left fun e _ => hpt e
  · intro ctx gs ec bc wc hgs
    rw [List.forall_iff_forall_mem]
    intro e he
    simp only [synthesizeEmitters, if_pos hgs, maxBaseEmitters,
      downsampleEvenly_zero, List.map_nil, List.append_nil] at he
    rcases List.mem_append.mp he with hguide | hwash
    · rcases List.mem_flatMap.mp hguide with ⟨g, _, hin⟩
      have := (List.forall_iff_forall_mem.mp
        (addEdgeEmitterRig_fields ctx g.start g.endPoint g.sourceVisible
          g.phase false guideEdgeLineSegmentCount
          (some guideEdgeLightFractions))) e hin
      exact fun _ => this.2.2
    · rcases List.mem_map.mp hwash with ⟨c, _, rfl⟩
      intro hlt
      exact absurd hlt (by simp [addWashEmitter])

/-- Witness for the amended C6: a single guide rig produces only
guide-driven edge emitters, all created not following source visibility. -/
theorem C6_visibility_amended_witness :
    (synthesizeEmitters ⟨100, 0⟩ [⟨⟨0, 0, 0⟩, ⟨10, 0, 0⟩, true, 0⟩]
        [] [] []).Forall fun e =>
      e.layerType = .edgeLed → e.followSourceVisibility = false :=
  C6_visibility_amended.2.2.2.2.2 ⟨100, 0⟩ [⟨⟨0, 0, 0⟩, ⟨10, 0, 0⟩, true, 0⟩]
    [] [] [] (by norm_num)

/-- Counterexample refuting claim C6 as stated: on a layer change, a wash
emitter that follows its (visible) source and whose own group effect is
`pink-glow` is nevertheless made invisible, because that pass evaluates
every emitter against the linear effect (`off` here), not the emitter's
group effect — `shouldEmitterBeVisible` with the group's effect would say
`true`. -/
theorem C6_counterexample :
    ((updateEmittersOnLayersChange .off
        [⟨.point, .washLights, true, true, 0, 1, true, 1, .rgbHex 0⟩]).map
      fun e => e.lightVisible) = [false] ∧
    shouldEmitterBeVisible
      (⟨.point, .washLights, true, true, 0, 1, true, 1, .rgbHex 0⟩ :
        EmitterLight) .pinkGlow = true := by
  constructor
  · simp [updateEmittersOnLayersChange, shouldEmitterBeVisible]
  · simp [shouldEmitterBeVisible,
      (by decide : ¬(LightEffect.pinkGlow = LightEffect.off))]

/-- Every synthesized emitter is either an edge-led spot light or a wash
point light; no `base-lights` emitter is ever created. -/
theorem synthesizeEmitters_kinds (ctx : RigContext) (gs : List (GuideRig ℝ))
    (ec : List (EdgeCandidate ℝ)) (bc : List (BaseCandidate ℝ))
    (wc : List (WashCandidate ℝ)) :
    ∀ e ∈ synthesizeEmitters ctx gs ec bc wc,
      (e.kind = .spot ∧ e.layerType = .edgeLed) ∨
      (e.kind = .point ∧ e.layerType = .washLights) := by
  intro e he
  by_cases hgs : 0 < gs.length
  · simp only [synthesizeEmitters, if_pos hgs, maxBaseEmitters,
      downsampleEvenly_zero, List.map_nil, List.append_nil] at he
    rcases List.mem_append.mp he with hedge | hwash
    · rcases List.mem_flatMap.mp hedge with ⟨g, _, hin⟩
      have h := (List.forall_iff_forall_mem.mp
        (addEdgeEmitterRig_fields ctx g.start g.endPoint g.sourceVisible
          g.phase false guideEdgeLineSegmentCount
          (some guideEdgeLightFractions))) e hin
      exact Or.inl ⟨h.1, h.2.1⟩
    · rcases List.mem_map.mp hwash with ⟨c, _, rfl⟩
      exact Or.inr ⟨rfl, rfl⟩
  · simp only [synthesizeEmitters, if_neg hgs, maxBaseEmitters,
      downsampleEvenly_zero, List.map_nil, List.append_nil] at he
    rcases List.mem_append.mp he with hedge | hwash
    · rcases List.mem_flatMap.mp hedge with ⟨c, _, hin⟩
      have h := (List.forall_iff_forall_mem.mp
        (addEdgeEmitterRig_fields ctx _ _ c.sourceVisible c.phase true
          fallbackEdgeLineSegmentCount none)) e hin
      exact Or.inl ⟨h.1, h.2.1⟩
    · rcases List.mem_map.mp hwash with ⟨c, _, rfl⟩
      exact Or.inr ⟨rfl, rfl⟩

/-- Claim C10: the base-emitter cap is 0, so downsampling any
base-candidate list yields the empty list, the synthesized emitter list
contains no `base-lights` emitter (`addBaseEmitter` is never reached), and
every synthesized spot emitter belongs to the `edge-led` group. -/
theorem C10_zero_base_emitters (ctx : RigContext) (gs : List (GuideRig ℝ))
    (ec : List (EdgeCandidate ℝ)) (bc : List (BaseCandidate ℝ))
    (wc : List (WashCandidate ℝ)) :
    maxBaseEmitters = 0 ∧
    downsampleEvenly bc maxBaseEmitters = [] ∧
    (synthesizeEmitters ctx gs ec bc wc).filter
      (fun e => decide (e.layerType = .baseLights)) = [] ∧
    (synthesizeEmitters ctx gs ec bc wc).filter
      (fun e => decide (e.kind = .spot ∧ e.layerType ≠ .edgeLed)) = [] := by
  refine ⟨rfl, downsampleEvenly_zero bc, ?_, ?_⟩
  · rw [List.filter_eq_nil_iff]
    intro e he
    rcases synthesizeEmitters_kinds ctx gs ec bc wc e he with ⟨_, hl⟩ | ⟨_, hl⟩ <;>
      simp [hl]
  · rw [List.filter_eq_nil_iff]
    intro e he
    rcases synthesizeEmitters_kinds ctx gs ec bc wc e he with
        ⟨hk, hl⟩ | ⟨hk, hl⟩ <;>
      simp [hk, hl]

/-- `jsModQ x 1` is `x` minus its JavaScript truncation. -/
theorem jsModQ_one (a : ℚ) : jsModQ a 1 = a - jsTruncQ a := by
  simp [jsModQ]

/-- `x % 1` lies in `(-1, 1)`. -/
theorem jsModQ_one_bounds (a : ℚ) : -1 < jsModQ a 1 ∧ jsModQ a 1 < 1 := by
  rw [jsModQ_one]
  unfold jsTruncQ
  by_cases h : 0 ≤ a
  · rw [if_pos h]
    constructor
    · have := Int.fract_nonneg a
      unfold Int.fract at this
      linarith
    · have := Int.fract_lt_one a
      unfold Int.fract at this
      linarith
  · rw [if_neg h]
    constructor
    · have := Int.ceil_lt_add_one a
      push_cast
      linarith
    · have := Int.le_ceil a
      push_cast
      linarith

/-- `x % 1` for nonnegative `x` is the fractional part. -/
theorem jsModQ_one_of_nonneg (a : ℚ) (h : 0 ≤ a) :
    jsModQ a 1 = Int.fract a := by
  rw [jsModQ_one]
  unfold jsTruncQ
  rw [if_pos h]
  rfl

/-- `((a % 1) + 1) % 1 ∈ [0, 1)` — the wrapped-UV invariant. -/
theorem wrapped_u_mem_Ico (a : ℚ) :
    0 ≤ jsModQ (jsModQ a 1 + 1) 1 ∧ jsModQ (jsModQ a 1 + 1) 1 < 1 := by
  have hb := jsModQ_one_bounds a
  have hx : (0 : ℚ) ≤ jsModQ a 1 + 1 := by linarith [hb.1]
  rw [jsModQ_one_of_nonneg _ hx]
  exact ⟨Int.fract_nonneg _, Int.fract_lt_one _⟩

/-- The fold inside `getNearestUvPhase` keeps the running minimum: the
accumulated pair holds a sample and its squared distance, the distance only
decreases, and in the end it is minimal over everything folded in. -/
theorem getNearestUvPhase_fold_min (p : Vec3 ℚ) :
    ∀ (rest : List EdgeUvSample) (b : EdgeUvSample × ℚ),
      b.2 = p.distanceToSquared b.1.position →
      (rest.foldl (nearestFoldStep p) b).2 =
        p.distanceToSquared (rest.foldl (nearestFoldStep p) b).1.position ∧
      ((rest.foldl (nearestFoldStep p) b).1 = b.1 ∨
        (rest.foldl (nearestFoldStep p) b).1 ∈ rest) ∧
      (rest.foldl (nearestFoldStep p) b).2 ≤ b.2 ∧
      ∀ s ∈ rest,
        (rest.foldl (nearestFoldStep p) b).2 ≤ p.distanceToSquared s.position := by
  intro rest
  induction rest with
  | nil => exact fun b hb => ⟨hb, Or.inl rfl, le_refl _, by simp⟩
  | cons s rest ih =>
      intro b hb
      rw [List.foldl_cons]
      by_cases hlt : p.distanceToSquared s.position < b.2
      · have hstep : nearestFoldStep p b s = (s, p.distanceToSquared s.position) := by
          simp [nearestFoldStep, hlt]
        rw [hstep]
        obtain ⟨h1, h2, h3, h4⟩ := ih (s, p.distanceToSquared s.position) rfl
        refine ⟨h1, ?_, ?_, ?_⟩
        · rcases h2 with h2 | h2
          · exact Or.inr (h2 ▸ List.mem_cons_self s rest)
          · exact Or.inr (List.mem_cons_of_mem s h2)
        · exact le_trans h3 (le_of_lt hlt)
        · intro s' hs'
          rcases List.mem_cons.mp hs' with rfl | hs'
          · exact h3
          · exact h4 s' hs'
      · have hstep : nearestFoldStep p b s = b := by
          simp [nearestFoldStep, hlt]
        rw [hstep]
        obtain ⟨h1, h2, h3, h4⟩ := ih b hb
        refine ⟨h1, ?_, h3, ?_⟩
        · rcases h2 with h2 | h2
          · exact Or.inl h2
          · exact Or.inr (List.mem_cons_of_mem s h2)
        · intro s' hs'
          rcases List.mem_cons.mp hs' with rfl | hs'
          · exact le_trans h3 (not_lt.mp hlt)
          · exact h4 s' hs'

/-- Claim C8: `getNearestUvPhase` returns `null` on an empty sample list
and never throws (it is a total function); on a nonempty list it returns
the `u` of a sample at minimal squared distance to the query point; and
every sample produced by `sampleMeshUvWorldPoints` has its `u` wrapped
into `[0, 1)`. -/
theorem C8_nearest_phase (p : Vec3 ℚ) (samples : List EdgeUvSample)
    (mesh : MeshQ) (maxSamples : ℕ) :
    getNearestUvPhase p [] = none ∧
    (samples ≠ [] → ∃ s ∈ samples,
      getNearestUvPhase p samples = some s.u ∧
      ∀ s' ∈ samples,
        p.distanceToSquared s.position ≤ p.distanceToSquared s'.position) ∧
    (∀ s ∈ sampleMeshUvWorldPoints mesh maxSamples,
      0 ≤ s.u ∧ s.u < 1) := by
  refine ⟨rfl, ?_, ?_⟩
  · intro hne
    match samples with
    | s0 :: rest =>
        obtain ⟨h1, h2, h3, h4⟩ :=
          getNearestUvPhase_fold_min p rest
            (s0, p.distanceToSquared s0.position) rfl
        refine ⟨_, ?_, rfl, ?_⟩
        · rcases h2 with h2 | h2
          · exact h2 ▸ List.mem_cons_self s0 rest
          · exact List.mem_cons_of_mem s0 h2
        · intro s' hs'
          rcases List.mem_cons.mp hs' with rfl | hs'
          · calc p.distanceToSquared _ = _ := h1.symm
              _ ≤ _ := h3
          · calc p.distanceToSquared _ = _ := h1.symm
              _ ≤ _ := h4 s' hs'
  · intro s hs
    unfold sampleMeshUvWorldPoints at hs
    split at hs
    · simp at hs
    · split at hs
      · simp at hs
      · dsimp only at hs
        split at hs
        · simp at hs
        · rcases List.mem_map.mp hs with ⟨i, _, rfl⟩
          exact wrapped_u_mem_Ico _

/-- Witness for C8: an empty list gives `none`; on two concrete samples the
nearer one's `u` is returned; a concrete mesh with `u = 3/2` yields the
wrapped value `1/2 ∈ [0, 1)`. -/
theorem C8_nearest_phase_witness :
    getNearestUvPhase ⟨9/10, 0, 0⟩ [] = none ∧
    (∃ s ∈ ([⟨⟨0, 0, 0⟩, 1/2⟩, ⟨⟨1, 0, 0⟩, 1/4⟩] : List EdgeUvSample),
      getNearestUvPhase ⟨9/10, 0, 0⟩
        [⟨⟨0, 0, 0⟩, 1/2⟩, ⟨⟨1, 0, 0⟩, 1/4⟩] = some s.u ∧
      ∀ s' ∈ ([⟨⟨0, 0, 0⟩, 1/2⟩, ⟨⟨1, 0, 0⟩, 1/4⟩] : List EdgeUvSample),
        Vec3.distanceToSquared ⟨9/10, 0, 0⟩ s.position ≤
          Vec3.distanceToSquared ⟨9/10, 0, 0⟩ s'.position) ∧
    (∀ s ∈ sampleMeshUvWorldPoints
        ⟨[⟨0, 0, 0⟩], some [(3/2, 0)], ⟨1, 0, 0, 0, 1, 0, 0, 0, 1, 0, 0, 0⟩⟩ 4,
      0 ≤ s.u ∧ s.u < 1) := by
  have h := C8_nearest_phase ⟨9/10, 0, 0⟩
    [⟨⟨0, 0, 0⟩, 1/2⟩, ⟨⟨1, 0, 0⟩, 1/4⟩]
    ⟨[⟨0, 0, 0⟩], some [(3/2, 0)], ⟨1, 0, 0, 0, 1, 0, 0, 0, 1, 0, 0, 0⟩⟩ 4
  exact ⟨h.1, h.2.1 (by simp), h.2.2⟩

/-- `getD` with the head as default is always a member. -/
theorem getD_mem_of_head {T : Type} (x : T) (xs : List T) (n : ℕ) :
    (x :: xs).getD n x ∈ x :: xs := by
  by_cases h : n < (x :: xs).length
  · rw [List.getD_eq_getElem _ _ h]
    exact List.getElem_mem h
  · rw [List.getD_eq_default _ _ (not_lt.mp h)]
    exact List.mem_cons_self x xs

/-- An element drawn by `downsampleEvenly` is an element of the input. -/
theorem downsampleEvenly_subset {T : Type} (items : List T) (k : ℕ) :
    ∀ c ∈ downsampleEvenly items k, c ∈ items := by
  intro c hc
  unfold downsampleEvenly at hc
  by_cases hk : k = 0
  · simp [hk] at hc
  · rw [if_neg hk] at hc
    by_cases hlen : items.length ≤ k
    · rwa [if_pos hlen] at hc
    · rw [if_neg hlen] at hc
      match items, hc with
      | x :: xs, hc =>
          rcases List.mem_map.mp hc with ⟨i, _, rfl⟩
          exact getD_mem_of_head x xs _

/-- `downsampleEvenly` never returns more than `maxCount` elements. -/
theorem downsampleEvenly_length_le {T : Type} (items : List T) (k : ℕ) :
    (downsampleEvenly items k).length ≤ k := by
  unfold downsampleEvenly
  by_cases hk : k = 0
  · simp [hk]
  · rw [if_neg hk]
    by_cases hlen : items.length ≤ k
    · rwa [if_pos hlen]
    · rw [if_neg hlen]
      match items with
      | [] => simp
      | x :: xs => exact le_of_eq (by simp only [List.length_map, List.length_range])

/-- Claim C9: in the guide-less fallback, only candidates within the canopy
band below the topmost candidate survive the filter, every selected rig
position comes from the candidate list, a candidate farther than the band
from the top is never selected, and at most `maxEdgeEmitters` positions are
selected. -/
theorem C9_canopy_band (cands : List (EdgeCandidate ℚ)) (maxDim : ℚ) :
    (∀ c ∈ downsampleEvenly
        (canopyEdgeCandidates cands (canopyBand maxDim)) maxEdgeEmitters,
      c ∈ cands ∧
      highestEdgeY cands ≤ ((c.point.y + canopyBand maxDim : ℚ) : WithBot ℚ)) ∧
    (∀ c ∈ cands,
      ¬ highestEdgeY cands ≤ ((c.point.y + canopyBand maxDim : ℚ) : WithBot ℚ) →
      c ∉ downsampleEvenly
        (canopyEdgeCandidates cands (canopyBand maxDim)) maxEdgeEmitters) ∧
    (downsampleEvenly
        (canopyEdgeCandidates cands (canopyBand maxDim))
        maxEdgeEmitters).length ≤ maxEdgeEmitters := by
  refine ⟨?_, ?_, downsampleEvenly_length_le _ _⟩
  · intro c hc
    have hmem := downsampleEvenly_subset _ _ c hc
    have := List.mem_filter.mp hmem
    exact ⟨this.1, of_decide_eq_true this.2⟩
  · intro c _ hband hc
    have hmem := downsampleEvenly_subset _ _ c hc
    have := List.mem_filter.mp hmem
    exact hband (of_decide_eq_true this.2)

/-- Witness for C9 on two concrete candidates under `maxDim = 10` (band
`max(0.8, 5) = 5`): the top candidate (`y = 10`) is selected and in band,
the low candidate (`y = 0`, deficit 10 > 5) is excluded. -/
theorem C9_canopy_band_witness :
    ((⟨true, ⟨0, 10, 0⟩, 0, ⟨1, 0, 0⟩⟩ : EdgeCandidate ℚ) ∈
      ([⟨true, ⟨0, 10, 0⟩, 0, ⟨1, 0, 0⟩⟩, ⟨true, ⟨0, 0, 0⟩, 0, ⟨1, 0, 0⟩⟩] :
        List (EdgeCandidate ℚ)) ∧
      highestEdgeY
        ([⟨true, ⟨0, 10, 0⟩, 0, ⟨1, 0, 0⟩⟩, ⟨true, ⟨0, 0, 0⟩, 0, ⟨1, 0, 0⟩⟩] :
          List (EdgeCandidate ℚ)) ≤
        ((10 + canopyBand (10 : ℚ) : ℚ) : WithBot ℚ)) ∧
    ((⟨true, ⟨0, 0, 0⟩, 0, ⟨1, 0, 0⟩⟩ : EdgeCandidate ℚ) ∉
      downsampleEvenly
        (canopyEdgeCandidates
          [⟨true, ⟨0, 10, 0⟩, 0, ⟨1, 0, 0⟩⟩, ⟨true, ⟨0, 0, 0⟩, 0, ⟨1, 0, 0⟩⟩]
          (canopyBand (10 : ℚ))) maxEdgeEmitters) := by
  have h := C9_canopy_band
    [⟨true, ⟨0, 10, 0⟩, 0, ⟨1, 0, 0⟩⟩, ⟨true, ⟨0, 0, 0⟩, 0, ⟨1, 0, 0⟩⟩] 10
  have hband : canopyBand (10 : ℚ) = 5 := by
    norm_num [canopyBand]
  have hH : highestEdgeY
      ([⟨true, ⟨0, 10, 0⟩, 0, ⟨1, 0, 0⟩⟩, ⟨true, ⟨0, 0, 0⟩, 0, ⟨1, 0, 0⟩⟩] :
        List (EdgeCandidate ℚ)) = ((10 : ℚ) : WithBot ℚ) := by
    norm_num [highestEdgeY]
  have hc1 : highestEdgeY
      ([⟨true, ⟨0, 10, 0⟩, 0, ⟨1, 0, 0⟩⟩, ⟨true, ⟨0, 0, 0⟩, 0, ⟨1, 0, 0⟩⟩] :
        List (EdgeCandidate ℚ)) ≤ (((10 : ℚ) + 5 : ℚ) : WithBot ℚ) := by
    rw [hH, WithBot.coe_le_coe]
    norm_num
  have hc2 : ¬ highestEdgeY
      ([⟨true, ⟨0, 10, 0⟩, 0, ⟨1, 0, 0⟩⟩, ⟨true, ⟨0, 0, 0⟩, 0, ⟨1, 0, 0⟩⟩] :
        List (EdgeCandidate ℚ)) ≤ (((0 : ℚ) + 5 : ℚ) : WithBot ℚ) := by
    rw [hH, WithBot.coe_le_coe]
    norm_num
  have hcanopy : canopyEdgeCandidates
      [⟨true, ⟨0, 10, 0⟩, 0, ⟨1, 0, 0⟩⟩, ⟨true, ⟨0, 0, 0⟩, 0, ⟨1, 0, 0⟩⟩]
      (canopyBand (10 : ℚ)) = [⟨true, ⟨0, 10, 0⟩, 0, ⟨1, 0, 0⟩⟩] := by
    simp only [canopyEdgeCandidates, hband, List.filter_cons, List.filter_nil,
      decide_eq_true hc1, decide_eq_false hc2, if_true, Bool.false_eq_true,
      if_false]
  have hdown : downsampleEvenly
      (canopyEdgeCandidates
        [⟨true, ⟨0, 10, 0⟩, 0, ⟨1, 0, 0⟩⟩, ⟨true, ⟨0, 0, 0⟩, 0, ⟨1, 0, 0⟩⟩]
        (canopyBand (10 : ℚ))) maxEdgeEmitters =
      [⟨true, ⟨0, 10, 0⟩, 0, ⟨1, 0, 0⟩⟩] := by
    rw [hcanopy]
    norm_num [downsampleEvenly, maxEdgeEmitters]
  refine ⟨?_, ?_⟩
  · exact h.1 _ (by rw [hdown]; exact List.mem_singleton.mpr rfl)
  · refine h.2.1 _ (List.mem_cons_of_mem _ (List.mem_cons_self _ _)) ?_
    rw [hH, hband]
    intro hle
    rw [WithBot.coe_le_coe] at hle
    norm_num at hle

/-- Mapping `getD` over the index range of a list reproduces the list. -/
theorem range_map_getD {T : Type} (l : List T) (d : T) :
    (List.range l.length).map (fun i => l.getD i d) = l := by
  induction l with
  | nil => rfl
  | cons x xs ih =>
      rw [List.length_cons, List.range_succ_eq_map, List.map_cons,
        List.map_map]
      simp only [List.getD_cons_zero, Function.comp_def, List.getD_cons_succ]
      rw [ih]

/-- `Math.round` of a natural number is itself. -/
theorem jsRoundQ_natCast (i : ℕ) : (jsRoundQ (i : ℚ)).toNat = i := by
  have h : (⌊(i : ℚ) + 1 / 2⌋ : ℤ) = i := by
    rw [Int.floor_eq_iff]
    constructor
    · push_cast; linarith
    · push_cast; linarith
  rw [jsRoundQ, jsRound, h, Int.toNat_natCast]

/-- `Math.round((L - 1) * 0.5)` is the flooring median rank `L / 2`. -/
theorem jsRoundQ_median (L : ℕ) :
    (jsRoundQ (((L : ℚ) - 1) * 0.5)).toNat = L / 2 := by
  have h1 : ((L : ℚ) - 1) * 0.5 + 1 / 2 = (L : ℚ) / 2 := by norm_num; ring
  have h2 : (⌊(L : ℚ) / 2⌋ : ℤ) = (L / 2 : ℕ) := by
    rw [Int.floor_eq_iff]
    constructor
    · exact_mod_cast Nat.cast_div_le
    · push_cast
      rw [div_lt_iff₀ (by norm_num : (0 : ℚ) < 2)]
      exact_mod_cast (by omega : L < (L / 2 + 1) * 2)
  rw [jsRoundQ, jsRound, h1, h2, Int.toNat_natCast]

/-- Sorting along the dominant axis preserves the vertex count. -/
theorem dominantAxisSorted_length (mesh : MeshQ) :
    (dominantAxisSorted mesh).length = mesh.vertices.length := by
  rw [dominantAxisSorted, List.length_mergeSort]

/-- On meshes below the 4096-vertex stride threshold, `sampleMeshWorldPoints`
keeps every vertex (step = 1) and reads evenly spaced ranks of the
dominant-axis-sorted vertex list. -/
theorem sampleMeshWorldPoints_small (mesh : MeshQ) (n : ℕ) (hn : n ≠ 0)
    (hne : mesh.vertices ≠ []) (hle : mesh.vertices.length < 4096) :
    sampleMeshWorldPoints mesh n =
      (List.range (min n mesh.vertices.length)).map fun (i : ℕ) =>
        mesh.world.apply ((dominantAxisSorted mesh).getD
          (jsRoundQ (((mesh.vertices.length : ℚ) - 1) *
            (if min n mesh.vertices.length = 1 then 0.5
             else (i : ℚ) / (((min n mesh.vertices.length : ℕ) : ℚ) - 1)))).toNat
          ⟨0, 0, 0⟩) := by
  have hstep : max 1 (mesh.vertices.length / 2048) = 1 := by omega
  simp only [sampleMeshWorldPoints, if_neg hn, hstep, Nat.add_sub_cancel,
    Nat.div_one, mul_one, range_map_getD]
  rw [if_neg (by simp [List.isEmpty_iff, hne])]
  simp only [dominantAxisSorted, List.length_mergeSort]

/-- C7: `sampleMeshWorldPoints` is deterministic (a pure function of the mesh
and the sample count); for meshes below the 4096-vertex stride threshold,
`n = 1` returns exactly the median-rank vertex (rank `vertexCount / 2`) of
the dominant-axis-sorted vertex list as a world point, and `n ≥ vertexCount`
returns all vertices as world points in dominant-axis order, a permutation
of the mesh's world-transformed vertices. (Amended: the original claim did
not restrict the mesh size; meshes with 4096 or more vertices are first
stride-subsampled, see the counterexample.) -/
theorem C7_sampler_amended (mesh : MeshQ) (n : ℕ)
    (hne : mesh.vertices ≠ []) (hsize : mesh.vertices.length < 4096) :
    sampleMeshWorldPoints mesh n = sampleMeshWorldPoints mesh n ∧
    sampleMeshWorldPoints mesh 1 =
      [mesh.world.apply ((dominantAxisSorted mesh).getD
        (mesh.vertices.length / 2) ⟨0, 0, 0⟩)] ∧
    (mesh.vertices.length ≤ n →
      sampleMeshWorldPoints mesh n =
        (dominantAxisSorted mesh).map mesh.world.apply ∧
      (sampleMeshWorldPoints mesh n).Perm
        (mesh.vertices.map mesh.world.apply)) := by
  have hL : 1 ≤ mesh.vertices.length := List.length_pos.mpr hne
  refine ⟨rfl, ?_, ?_⟩
  · rw [sampleMeshWorldPoints_small mesh 1 one_ne_zero hne hsize]
    have hmin : min 1 mesh.vertices.length = 1 := by omega
    rw [hmin]
    rw [show List.range 1 = [0] from rfl]
    rw [List.map_cons, List.map_nil, if_pos rfl, jsRoundQ_median]
  · intro hcnt
    have h := sampleMeshWorldPoints_small mesh n (by omega) hne hsize
    have hmin : min n mesh.vertices.length = mesh.vertices.length := by omega
    rw [hmin] at h
    have hmain : sampleMeshWorldPoints mesh n =
        (dominantAxisSorted mesh).map mesh.world.apply := by
      rw [h]
      have h2 := congrArg (List.map mesh.world.apply)
        (range_map_getD (dominantAxisSorted mesh) ⟨0, 0, 0⟩)
      rw [List.map_map, dominantAxisSorted_length] at h2
      simp only [Function.comp_def] at h2
      rw [← h2]
      apply List.map_congr_left
      intro i hi
      rw [List.mem_range] at hi
      by_cases hL1 : mesh.vertices.length = 1
      · rw [if_pos hL1]
        have hi0 : i = 0 := by omega
        subst hi0
        rw [hL1]
        norm_num [jsRoundQ, jsRound]
      · rw [if_neg hL1]
        have hne1 : ((mesh.vertices.length : ℚ) - 1) ≠ 0 := by
          have h2le : (2 : ℚ) ≤ (mesh.vertices.length : ℚ) := by
            exact_mod_cast (by omega : 2 ≤ mesh.vertices.length)
          intro hc
          linarith
        rw [show ((mesh.vertices.length : ℚ) - 1) *
            ((i : ℚ) / ((mesh.vertices.length : ℚ) - 1)) = (i : ℚ) by
          rw [mul_comm]; exact div_mul_cancel₀ _ hne1]
        rw [jsRoundQ_natCast]
    exact ⟨hmain, hmain ▸ ((List.mergeSort_perm mesh.vertices _).map
      mesh.world.apply)⟩

/-- C7 witness: the sampler theorem instantiated on a concrete three-vertex
mesh at sample counts 1 and 3. -/
theorem C7_sampler_amended_witness :
    c7wmesh.vertices ≠ [] ∧ c7wmesh.vertices.length < 4096 ∧
    c7wmesh.vertices.length ≤ 3 ∧
    sampleMeshWorldPoints c7wmesh 1 =
      [c7wmesh.world.apply ((dominantAxisSorted c7wmesh).getD
        (c7wmesh.vertices.length / 2) ⟨0, 0, 0⟩)] ∧
    sampleMeshWorldPoints c7wmesh 3 =
      (dominantAxisSorted c7wmesh).map c7wmesh.world.apply ∧
    (sampleMeshWorldPoints c7wmesh 3).Perm
      (c7wmesh.vertices.map c7wmesh.world.apply) :=
  ⟨by simp [c7wmesh], by simp [c7wmesh], by simp [c7wmesh],
   (C7_sampler_amended c7wmesh 3 (by simp [c7wmesh])
     (by simp [c7wmesh])).2.1,
   ((C7_sampler_amended c7wmesh 3 (by simp [c7wmesh])
     (by simp [c7wmesh])).2.2 (by simp [c7wmesh])).1,
   ((C7_sampler_amended c7wmesh 3 (by simp [c7wmesh])
     (by simp [c7wmesh])).2.2 (by simp [c7wmesh])).2⟩

/-- Length of the sampler output: `min n` of the stride-subsampled count. -/
theorem sampleMeshWorldPoints_length (mesh : MeshQ) (n : ℕ) (hn : n ≠ 0)
    (hne : mesh.vertices ≠ []) :
    (sampleMeshWorldPoints mesh n).length =
      min n ((mesh.vertices.length + max 1 (mesh.vertices.length / 2048) - 1) /
        max 1 (mesh.vertices.length / 2048)) := by
  have hL : 1 ≤ mesh.vertices.length := List.length_pos.mpr hne
  have hs : 1 ≤ max 1 (mesh.vertices.length / 2048) := le_max_left _ _
  have hK : (mesh.vertices.length + max 1 (mesh.vertices.length / 2048) - 1) /
      max 1 (mesh.vertices.length / 2048) ≠ 0 := by
    have h := Nat.div_pos
      (show max 1 (mesh.vertices.length / 2048) ≤
        mesh.vertices.length + max 1 (mesh.vertices.length / 2048) - 1 by omega)
      (show 0 < max 1 (mesh.vertices.length / 2048) by omega)
    omega
  simp only [sampleMeshWorldPoints, if_neg hn]
  rw [if_neg (by simp [List.isEmpty_iff, List.range_eq_nil, hK])]
  simp only [List.length_map, List.length_range, List.length_mergeSort]

/-- C7 counterexample: on a 4096-vertex mesh the stride is 2, so with
`n = vertexCount` the sampler returns only 2048 points — not all vertices,
refuting the unrestricted claim. -/
theorem C7_counterexample :
    4096 ≤ c7mesh.vertices.length ∧
    ¬ (sampleMeshWorldPoints c7mesh 4096).Perm
      (c7mesh.vertices.map c7mesh.world.apply) := by
  have hL : c7mesh.vertices.length = 4096 := by simp [c7mesh]
  refine ⟨by omega, fun hperm => ?_⟩
  have hlen := hperm.length_eq
  rw [sampleMeshWorldPoints_length c7mesh 4096 (by omega)
    (List.length_pos.mp (by omega)), List.length_map, hL] at hlen
  norm_num at hlen

end Plaza
